import Mathlib

/-!
# DragRotateAndZoom

A shallow embedding of `src/ol/interaction/DragRotateAndZoom.js`.

* JavaScript numbers are a type `α` with the operations the file uses
  (`+`, `-`, `*`, `/`, `>` and literals); the handlers are computable for a
  computable `α`.  Two readings are used.  In an ordered field the arithmetic
  is exact (no rounding, no `NaN`, no infinities): most statements are made
  there, the numeric ones over `ℝ` with `Math.real`.  In `Double` the numbers
  are the finite IEEE 754 doubles and every operation is rounded, with
  `Math.double`: statements made for every `α` hold there too.
* `Math.atan2`, `Math.sqrt` and the two predicates the file takes from
  `../events/condition.js` (`mouseOnly`, `shiftKeyOnly`) are not part of the
  file: the handlers take them as parameters.
* The View is an external collaborator: a handler returns the list of View
  methods it invoked, in order, next to the new controller and its own
  return value.
-/

/-- The methods of the View the interaction invokes, with their arguments. -/
inductive ViewCall (α : Type) where
  | beginInteraction : ViewCall α
  | endInteraction (duration direction : α) : ViewCall α
  | adjustRotation (delta : α) : ViewCall α
  | adjustResolution (factor : α) : ViewCall α
  deriving DecidableEq, Repr

/-- What a handler reads of a `MapBrowserEvent`: `pixel`, the size of its map
(`mapBrowserEvent.map.getSize()`), and the underlying browser event, of a type
`ε` left open, which only the predicates on events look at. -/
structure MapBrowserEvent (α ε : Type) where
  pixel : α × α
  size : α × α
  originalEvent : ε

/-- The functions of the JavaScript `Math` object that the file calls. -/
structure Math (α : Type) where
  atan2 : α → α → α
  sqrt : α → α

/-- The predicates on events taken from `../events/condition.js`. -/
structure Condition (α ε : Type) where
  shiftKeyOnly : MapBrowserEvent α ε → Bool
  mouseOnly : MapBrowserEvent α ε → Bool

/-- The `Options` typedef: both properties are optional. -/
structure Options (α ε : Type) where
  condition : Option (MapBrowserEvent α ε → Bool)
  duration : Option α

/-- The private fields of a `DragRotateAndZoom` instance; `undefined` is
`none`. -/
structure DragRotateAndZoom (α ε : Type) where
  condition_ : MapBrowserEvent α ε → Bool
  lastAngle_ : Option α
  lastMagnitude_ : Option α
  lastScaleDelta_ : α
  duration_ : α

/-- The outcome of a handler: the controller afterwards, the View methods
invoked (in order) and the value returned. -/
structure Outcome (α ε ρ : Type) where
  self : DragRotateAndZoom α ε
  calls : List (ViewCall α)
  value : ρ

/-- One invocation of a handler of the controller. -/
inductive HandlerCall (α ε : Type) where
  | handleDownEvent (mapBrowserEvent : MapBrowserEvent α ε) : HandlerCall α ε
  | handleDragEvent (mapBrowserEvent : MapBrowserEvent α ε) : HandlerCall α ε
  | handleUpEvent (mapBrowserEvent : MapBrowserEvent α ε) : HandlerCall α ε

/-- The arguments of the `adjustRotation` calls of a trace, in order. -/
def rotationArgs {α : Type} : List (ViewCall α) → List α
  | [] => []
  | ViewCall.adjustRotation d :: cs => d :: rotationArgs cs
  | _ :: cs => rotationArgs cs

/-- The arguments of the `adjustResolution` calls of a trace, in order. -/
def resolutionArgs {α : Type} : List (ViewCall α) → List α
  | [] => []
  | ViewCall.adjustResolution f :: cs => f :: resolutionArgs cs
  | _ :: cs => resolutionArgs cs

/-- The `(duration, direction)` arguments of the `endInteraction` calls of a
trace, in order. -/
def endInteractionArgs {α : Type} : List (ViewCall α) → List (α × α)
  | [] => []
  | ViewCall.endInteraction t d :: cs => (t, d) :: endInteractionArgs cs
  | _ :: cs => endInteractionArgs cs

/-- `Math` over the real numbers: `atan2 y x` is the argument of `x + y i`, in
`(-π, π]` and `0` at the origin; `sqrt` is the real square root. -/
noncomputable def Math.real : Math ℝ where
  atan2 := fun y x => Complex.arg ⟨x, y⟩
  sqrt := Real.sqrt

/-! ## Doubles

JavaScript numbers are IEEE 754 doubles.  The model below keeps the finite
ones, by their rational value, with every arithmetic operation rounded to the
nearest double (ties to the even significand).  `NaN`, the infinities, the
sign of zero, overflow and subnormal numbers are left out, and so is division
by zero (it takes the value 0 of the rationals). -/

/-- Round to the nearest integer, ties to the even one. -/
def roundHalfEven {K : Type} [LinearOrderedField K] [FloorRing K] (y : K) : ℤ :=
  if y - ⌊y⌋ < 1 / 2 then ⌊y⌋
  else if 1 / 2 < y - ⌊y⌋ then ⌊y⌋ + 1
  else if ⌊y⌋ % 2 = 0 then ⌊y⌋ else ⌊y⌋ + 1

/-- The number with a significand of 53 bits nearest to `x`, ties to the even
significand: with `2 ^ e ≤ |x| < 2 ^ (e + 1)`, the multiple of `2 ^ (e - 52)`
nearest to `x`. -/
def binary64 {K : Type} [LinearOrderedField K] [FloorRing K] (x : K) : ℚ :=
  if x = 0 then 0
  else (roundHalfEven (x / 2 ^ (Int.log 2 |x| - 52)) : ℚ) * 2 ^ (Int.log 2 |x| - 52)

/-- A finite double, by its value. -/
structure Double where
  val : ℚ

instance Double.instZero : Zero Double := ⟨⟨0⟩⟩

instance Double.instOne : One Double := ⟨⟨1⟩⟩

instance Double.instNatCast : NatCast Double := ⟨fun n => ⟨binary64 (n : ℚ)⟩⟩

instance Double.instNeg : Neg Double := ⟨fun a => ⟨-a.val⟩⟩

instance Double.instAdd : Add Double := ⟨fun a b => ⟨binary64 (a.val + b.val)⟩⟩

instance Double.instSub : Sub Double := ⟨fun a b => ⟨binary64 (a.val - b.val)⟩⟩

instance Double.instMul : Mul Double := ⟨fun a b => ⟨binary64 (a.val * b.val)⟩⟩

instance Double.instDiv : Div Double := ⟨fun a b => ⟨binary64 (a.val / b.val)⟩⟩

instance Double.instLT : LT Double := ⟨fun a b => a.val < b.val⟩

instance Double.instDecidableLT : DecidableRel (fun a b : Double => a < b) :=
  fun a b => inferInstanceAs (Decidable (a.val < b.val))

/-- `Math` on doubles, correctly rounded: `atan2 y x` is the double nearest to
the argument of `x + y i`, and `sqrt` the double nearest to the square root.
IEEE 754 requires it of `sqrt`; ECMAScript leaves `atan2` to the
implementation ("implementation-approximated"), and a good one returns the
nearest double wherever the exact value is not close to half-way between two
doubles. -/
noncomputable def Math.double : Math Double where
  atan2 := fun y x => ⟨binary64 (Complex.arg ⟨(x.val : ℝ), (y.val : ℝ)⟩)⟩
  sqrt := fun x => ⟨binary64 (Real.sqrt (x.val : ℝ))⟩

namespace DragRotateAndZoom

variable {α ε : Type} [Zero α] [One α] [NatCast α] [Neg α] [Add α] [Sub α] [Mul α] [Div α]
  [LT α] [DecidableRel (fun a b : α => a < b)]

/-- The constructor (source lines 34-70). -/
def create (C : Condition α ε) (opt_options : Option (Options α ε)) :
    DragRotateAndZoom α ε :=
  let options : Options α ε :=
    match opt_options with
    | some o => o
    | none => ⟨none, none⟩
  { condition_ :=
      match options.condition with
      | some c => c
      | none => C.shiftKeyOnly
    lastAngle_ := none
    lastMagnitude_ := none
    lastScaleDelta_ := 0
    duration_ :=
      match options.duration with
      | some d => d
      | none => 400 }

/-- The angle `theta` that `handleDragEvent` computes for an event. -/
def theta (M : Math α) (mapBrowserEvent : MapBrowserEvent α ε) : α :=
  let size := mapBrowserEvent.size
  let offset := mapBrowserEvent.pixel
  let deltaX := offset.1 - size.1 / 2
  let deltaY := size.2 / 2 - offset.2
  M.atan2 deltaY deltaX

/-- The `magnitude` that `handleDragEvent` computes for an event. -/
def magnitude (M : Math α) (mapBrowserEvent : MapBrowserEvent α ε) : α :=
  let size := mapBrowserEvent.size
  let offset := mapBrowserEvent.pixel
  let deltaX := offset.1 - size.1 / 2
  let deltaY := size.2 / 2 - offset.2
  M.sqrt (deltaX * deltaX + deltaY * deltaY)

/-- The method `handleDragEvent` (source lines 75-100); it returns nothing. -/
def handleDragEvent (C : Condition α ε) (M : Math α) (self : DragRotateAndZoom α ε)
    (mapBrowserEvent : MapBrowserEvent α ε) : Outcome α ε Unit :=
  if !C.mouseOnly mapBrowserEvent then
    ⟨self, [], ()⟩
  else
    let size := mapBrowserEvent.size
    let offset := mapBrowserEvent.pixel
    let deltaX := offset.1 - size.1 / 2
    let deltaY := size.2 / 2 - offset.2
    let theta := M.atan2 deltaY deltaX
    let magnitude := M.sqrt (deltaX * deltaX + deltaY * deltaY)
    let calls1 : List (ViewCall α) :=
      match self.lastAngle_ with
      | some lastAngle => [ViewCall.adjustRotation (lastAngle - theta)]
      | none => []
    let self1 := { self with lastAngle_ := some theta }
    let calls2 : List (ViewCall α) :=
      match self1.lastMagnitude_ with
      | some lastMagnitude => calls1 ++ [ViewCall.adjustResolution (lastMagnitude / magnitude)]
      | none => calls1
    let self2 :=
      match self1.lastMagnitude_ with
      | some lastMagnitude => { self1 with lastScaleDelta_ := lastMagnitude / magnitude }
      | none => self1
    let self3 := { self2 with lastMagnitude_ := some magnitude }
    ⟨self3, calls2, ()⟩

/-- The method `handleUpEvent` (source lines 105-116). -/
def handleUpEvent (C : Condition α ε) (self : DragRotateAndZoom α ε)
    (mapBrowserEvent : MapBrowserEvent α ε) : Outcome α ε Bool :=
  if !C.mouseOnly mapBrowserEvent then
    ⟨self, [], true⟩
  else
    let direction : α := if self.lastScaleDelta_ > 1 then 1 else -1
    let calls := [ViewCall.endInteraction self.duration_ direction]
    ⟨{ self with lastScaleDelta_ := 0 }, calls, false⟩

/-- The method `handleDownEvent` (source lines 121-134). -/
def handleDownEvent (C : Condition α ε) (self : DragRotateAndZoom α ε)
    (mapBrowserEvent : MapBrowserEvent α ε) : Outcome α ε Bool :=
  if !C.mouseOnly mapBrowserEvent then
    ⟨self, [], false⟩
  else if self.condition_ mapBrowserEvent then
    ⟨{ self with lastAngle_ := none, lastMagnitude_ := none },
      [ViewCall.beginInteraction], true⟩
  else
    ⟨self, [], false⟩

/-- One handler invocation; `handleDragEvent` returns `undefined`, here
`none`. -/
def invoke (C : Condition α ε) (M : Math α) (self : DragRotateAndZoom α ε) :
    HandlerCall α ε → Outcome α ε (Option Bool)
  | HandlerCall.handleDownEvent e =>
      let r := handleDownEvent C self e
      ⟨r.self, r.calls, some r.value⟩
  | HandlerCall.handleDragEvent e =>
      let r := handleDragEvent C M self e
      ⟨r.self, r.calls, none⟩
  | HandlerCall.handleUpEvent e =>
      let r := handleUpEvent C self e
      ⟨r.self, r.calls, some r.value⟩

/-- A sequence of handler invocations on one controller: the final
controller, all View calls in order, and the returned values in order. -/
def invokeAll (C : Condition α ε) (M : Math α) (self : DragRotateAndZoom α ε) :
    List (HandlerCall α ε) → Outcome α ε (List (Option Bool))
  | [] => ⟨self, [], []⟩
  | c :: cs =>
      let r := invoke C M self c
      let rs := invokeAll C M r.self cs
      ⟨rs.self, r.calls ++ rs.calls, r.value :: rs.value⟩

/-- Whether a handler invocation is a drag sample of a mouse device. -/
def isMouseSample (C : Condition α ε) : HandlerCall α ε → Bool
  | HandlerCall.handleDragEvent e => C.mouseOnly e
  | HandlerCall.handleDownEvent _ => false
  | HandlerCall.handleUpEvent _ => false

/-- Whether a handler invocation is a down or an up event of a mouse device. -/
def isMouseDownOrUp (C : Condition α ε) : HandlerCall α ε → Bool
  | HandlerCall.handleDownEvent e => C.mouseOnly e
  | HandlerCall.handleUpEvent e => C.mouseOnly e
  | HandlerCall.handleDragEvent _ => false

/-- Two controllers that agree on every field but `lastScaleDelta_`. -/
def sameButScaleDelta (s1 s2 : DragRotateAndZoom α ε) : Prop :=
  s1.condition_ = s2.condition_ ∧ s1.lastAngle_ = s2.lastAngle_ ∧
    s1.lastMagnitude_ = s2.lastMagnitude_ ∧ s1.duration_ = s2.duration_

/-! ## Concrete inputs -/

/-- Example predicates: the browser event is a flag telling a mouse device,
`mouseOnly` reads it, and `shiftKeyOnly` accepts every event. -/
def flagCondition (α : Type) : Condition α Bool :=
  ⟨fun _ => true, fun e => e.originalEvent⟩

/-- Example event: a mouse event at pixel `(px, py)` on a 200 by 200
viewport, whose centre is `(100, 100)`. -/
def mouseAt (px py : α) : MapBrowserEvent α Bool :=
  ⟨(px, py), (200, 200), true⟩

/-- Example event: an event of another device (a touch, say) at pixel
`(px, py)` on a 200 by 200 viewport. -/
def touchAt (px py : α) : MapBrowserEvent α Bool :=
  ⟨(px, py), (200, 200), false⟩

/-- Example controller in the middle of a gesture: previous angle 1, previous
magnitude 1, last scale delta 2, duration 400, a condition accepting every
event. -/
def midGesture (α : Type) [LinearOrderedField α] : DragRotateAndZoom α Bool :=
  ⟨fun _ => true, some 1, some 1, 2, 400⟩

/-- Example controller as `midGesture`, with a condition rejecting every
event. -/
def midGestureRejecting (α : Type) [LinearOrderedField α] : DragRotateAndZoom α Bool :=
  ⟨fun _ => false, some 1, some 1, 2, 400⟩

end DragRotateAndZoom

namespace DragRotateAndZoom

variable {α ε : Type} [LinearOrderedField α]

/-! ## Facts about `Math.real` -/

theorem real_atan2_pos_zero {x : ℝ} (hx : 0 ≤ x) : Math.real.atan2 0 x = 0 := by
  show Complex.arg ⟨x, 0⟩ = 0
  rw [Complex.arg_eq_zero_iff]
  exact ⟨hx, rfl⟩

theorem real_atan2_zero_pos {y : ℝ} (hy : 0 < y) : Math.real.atan2 y 0 = Real.pi / 2 := by
  show Complex.arg ⟨0, y⟩ = Real.pi / 2
  rw [Complex.arg_eq_pi_div_two_iff]
  exact ⟨rfl, hy⟩

theorem real_sqrt_sq_add_zero {x : ℝ} (hx : 0 ≤ x) : Math.real.sqrt (x * x + 0 * 0) = x := by
  show Real.sqrt (x * x + 0 * 0) = x
  rw [mul_zero, add_zero, Real.sqrt_mul_self hx]

/-- On the middle row of the 200 by 200 viewport, to the right of the centre,
the magnitude is the horizontal distance to the centre. -/
theorem real_magnitude_mouseAt {px : ℝ} (hx : 100 ≤ px) :
    magnitude Math.real (mouseAt px 100) = px - 100 := by
  have h : (0 : ℝ) ≤ px - 100 := by linarith
  have h2 : magnitude Math.real (mouseAt px 100)
      = Math.real.sqrt ((px - 100) * (px - 100) + 0 * 0) := by
    simp only [magnitude, mouseAt]
    norm_num
  rw [h2, real_sqrt_sq_add_zero h]

end DragRotateAndZoom

namespace DragRotateAndZoom

variable {α ε : Type} [NatCast α] [Add α] [Sub α] [Mul α] [Div α]

/-! ## One drag sample -/

theorem handleDragEvent_mouse_lastAngle (C : Condition α ε) (M : Math α)
    (self : DragRotateAndZoom α ε) (e : MapBrowserEvent α ε) (hmouse : C.mouseOnly e = true) :
    (handleDragEvent C M self e).self.lastAngle_ = some (theta M e) := by
  unfold handleDragEvent
  simp only [hmouse]
  cases self.lastMagnitude_ <;> rfl

theorem handleDragEvent_mouse_lastMagnitude (C : Condition α ε) (M : Math α)
    (self : DragRotateAndZoom α ε) (e : MapBrowserEvent α ε) (hmouse : C.mouseOnly e = true) :
    (handleDragEvent C M self e).self.lastMagnitude_ = some (magnitude M e) := by
  unfold handleDragEvent
  simp only [hmouse]
  cases self.lastMagnitude_ <;> rfl

theorem handleDragEvent_mouse_lastScaleDelta (C : Condition α ε) (M : Math α)
    (self : DragRotateAndZoom α ε) (e : MapBrowserEvent α ε) (m : α)
    (hmouse : C.mouseOnly e = true) (hmag : self.lastMagnitude_ = some m) :
    (handleDragEvent C M self e).self.lastScaleDelta_ = m / magnitude M e := by
  unfold handleDragEvent
  simp only [hmouse, hmag]
  rfl

end DragRotateAndZoom

namespace DragRotateAndZoom

variable {α ε : Type} [LinearOrderedField α]

/-- C1: when `lastAngle_` is set to `a`, a mouse drag sample with pixel
`(px, py)` and viewport size `(w, h)` issues exactly one `adjustRotation`
call, and its argument is `a - atan2 (h/2 - py) (px - w/2)`. -/
theorem C1_drag_rotation (C : Condition α ε) (M : Math α) (self : DragRotateAndZoom α ε)
    (e : MapBrowserEvent α ε) (a : α)
    (hmouse : C.mouseOnly e = true) (hangle : self.lastAngle_ = some a) :
    rotationArgs (handleDragEvent C M self e).calls
      = [a - M.atan2 (e.size.2 / 2 - e.pixel.2) (e.pixel.1 - e.size.1 / 2)] := by
  unfold handleDragEvent
  simp only [hmouse, hangle]
  cases self.lastMagnitude_ <;> simp [rotationArgs]

/-- Witness of C1 over the reals: after a first sample with centre-relative
vector `(0, 100)`, which sets the previous angle to `π / 2`, the sample with
centre-relative vector `(100, 0)` issues the single call
`adjustRotation (π / 2)`. -/
theorem C1_drag_rotation_witness :
    (flagCondition ℝ).mouseOnly (mouseAt 200 100) = true ∧
    (handleDragEvent (flagCondition ℝ) Math.real (create (flagCondition ℝ) none)
      (mouseAt 100 0)).self.lastAngle_ = some (Real.pi / 2) ∧
    rotationArgs (handleDragEvent (flagCondition ℝ) Math.real
      (handleDragEvent (flagCondition ℝ) Math.real (create (flagCondition ℝ) none)
        (mouseAt 100 0)).self (mouseAt 200 100)).calls = [Real.pi / 2] := by
  have h1 : (handleDragEvent (flagCondition ℝ) Math.real (create (flagCondition ℝ) none)
      (mouseAt 100 0)).self.lastAngle_ = some (Real.pi / 2) := by
    rw [handleDragEvent_mouse_lastAngle _ _ _ _ rfl]
    simp only [theta, mouseAt]
    norm_num
    exact real_atan2_zero_pos (by norm_num)
  refine ⟨rfl, h1, ?_⟩
  rw [C1_drag_rotation _ _ _ _ _ rfl h1]
  simp only [mouseAt]
  norm_num
  exact real_atan2_pos_zero (by norm_num)

/-- C2: when `lastMagnitude_` is set to `m`, a mouse drag sample whose
centre-relative vector has a non-zero magnitude `g` issues exactly one
`adjustResolution` call, with argument `m / g`, and afterwards
`lastScaleDelta_` is that same `m / g`. -/
theorem C2_drag_resolution (C : Condition α ε) (M : Math α) (self : DragRotateAndZoom α ε)
    (e : MapBrowserEvent α ε) (m g : α)
    (hmouse : C.mouseOnly e = true) (hmag : self.lastMagnitude_ = some m)
    (hg : g = M.sqrt ((e.pixel.1 - e.size.1 / 2) * (e.pixel.1 - e.size.1 / 2)
      + (e.size.2 / 2 - e.pixel.2) * (e.size.2 / 2 - e.pixel.2)))
    (_hg0 : g ≠ 0) :
    resolutionArgs (handleDragEvent C M self e).calls = [m / g] ∧
    (handleDragEvent C M self e).self.lastScaleDelta_ = m / g := by
  subst hg
  unfold handleDragEvent
  simp only [hmouse, hmag]
  cases self.lastAngle_ <;> simp [resolutionArgs]

/-- Witness of C2 over the reals: after a first sample of magnitude 100, a
sample of magnitude 50 issues the single call `adjustResolution 2` and leaves
`lastScaleDelta_` at 2. -/
theorem C2_drag_resolution_witness :
    (handleDragEvent (flagCondition ℝ) Math.real (create (flagCondition ℝ) none)
      (mouseAt 200 100)).self.lastMagnitude_ = some 100 ∧
    magnitude Math.real (mouseAt (150 : ℝ) 100) = 50 ∧
    resolutionArgs (handleDragEvent (flagCondition ℝ) Math.real
      (handleDragEvent (flagCondition ℝ) Math.real (create (flagCondition ℝ) none)
        (mouseAt 200 100)).self (mouseAt 150 100)).calls = [2] ∧
    (handleDragEvent (flagCondition ℝ) Math.real
      (handleDragEvent (flagCondition ℝ) Math.real (create (flagCondition ℝ) none)
        (mouseAt 200 100)).self (mouseAt 150 100)).self.lastScaleDelta_ = 2 := by
  have h1 : (handleDragEvent (flagCondition ℝ) Math.real (create (flagCondition ℝ) none)
      (mouseAt 200 100)).self.lastMagnitude_ = some 100 := by
    rw [handleDragEvent_mouse_lastMagnitude _ _ _ _ rfl,
      real_magnitude_mouseAt (by norm_num)]
    norm_num
  have h2 : magnitude Math.real (mouseAt (150 : ℝ) 100) = 50 := by
    rw [real_magnitude_mouseAt (by norm_num)]
    norm_num
  have h := C2_drag_resolution (flagCondition ℝ) Math.real _ (mouseAt 150 100) 100 50
    rfl h1 h2.symm (by norm_num)
  refine ⟨h1, h2, ?_, ?_⟩
  · rw [h.1]; norm_num
  · rw [h.2]; norm_num

/-- C3: whatever the controller was before, after an accepted down event
(mouse device, activation condition true) the first mouse drag sample issues
no View call at all, and leaves `lastAngle_` and `lastMagnitude_` set to
`atan2 dy dx` and `sqrt (dx * dx + dy * dy)` of its centre-relative vector
`dx = px - w/2`, `dy = h/2 - py`. -/
theorem C3_first_drag (C : Condition α ε) (M : Math α) (self : DragRotateAndZoom α ε)
    (d e : MapBrowserEvent α ε)
    (hd : C.mouseOnly d = true) (hc : self.condition_ d = true)
    (he : C.mouseOnly e = true) :
    (handleDragEvent C M (handleDownEvent C self d).self e).calls = [] ∧
    (handleDragEvent C M (handleDownEvent C self d).self e).self.lastAngle_
      = some (M.atan2 (e.size.2 / 2 - e.pixel.2) (e.pixel.1 - e.size.1 / 2)) ∧
    (handleDragEvent C M (handleDownEvent C self d).self e).self.lastMagnitude_
      = some (M.sqrt ((e.pixel.1 - e.size.1 / 2) * (e.pixel.1 - e.size.1 / 2)
        + (e.size.2 / 2 - e.pixel.2) * (e.size.2 / 2 - e.pixel.2))) := by
  simp [handleDragEvent, handleDownEvent, hd, hc, he]

/-- Witness of C3 over the reals: from a controller in the middle of a
gesture, an accepted down event followed by the sample with centre-relative
vector `(100, 0)` issues no View call and leaves angle 0 and magnitude 100. -/
theorem C3_first_drag_witness :
    (flagCondition ℝ).mouseOnly (mouseAt 100 100) = true ∧
    (midGesture ℝ).condition_ (mouseAt 100 100) = true ∧
    (handleDragEvent (flagCondition ℝ) Math.real
      (handleDownEvent (flagCondition ℝ) (midGesture ℝ) (mouseAt 100 100)).self
      (mouseAt 200 100)).calls = [] ∧
    (handleDragEvent (flagCondition ℝ) Math.real
      (handleDownEvent (flagCondition ℝ) (midGesture ℝ) (mouseAt 100 100)).self
      (mouseAt 200 100)).self.lastAngle_ = some 0 ∧
    (handleDragEvent (flagCondition ℝ) Math.real
      (handleDownEvent (flagCondition ℝ) (midGesture ℝ) (mouseAt 100 100)).self
      (mouseAt 200 100)).self.lastMagnitude_ = some 100 := by
  have h := C3_first_drag (flagCondition ℝ) Math.real (midGesture ℝ) (mouseAt 100 100)
    (mouseAt 200 100) rfl rfl rfl
  refine ⟨rfl, rfl, h.1, ?_, ?_⟩
  · rw [h.2.1]
    simp only [mouseAt]
    norm_num
    exact real_atan2_pos_zero (by norm_num)
  · rw [h.2.2]
    simp only [mouseAt]
    norm_num
    have := @real_sqrt_sq_add_zero 100 (by norm_num)
    norm_num at this
    exact this

end DragRotateAndZoom

namespace DragRotateAndZoom

variable {α ε : Type} [LinearOrderedField α]

/-! ## Release -/

/-- C4: a mouse up event issues exactly one View call,
`endInteraction duration direction`, with the configured duration and with
direction `1` when `lastScaleDelta_ > 1` and `-1` otherwise, so `-1` when
`lastScaleDelta_` is exactly `1` or `0`; and the handler returns `false`. -/
theorem C4_up_end_interaction (C : Condition α ε) (self : DragRotateAndZoom α ε)
    (e : MapBrowserEvent α ε) (hmouse : C.mouseOnly e = true) :
    (handleUpEvent C self e).value = false ∧
    (self.lastScaleDelta_ > 1 →
      (handleUpEvent C self e).calls = [ViewCall.endInteraction self.duration_ 1]) ∧
    (¬ self.lastScaleDelta_ > 1 →
      (handleUpEvent C self e).calls = [ViewCall.endInteraction self.duration_ (-1)]) ∧
    (self.lastScaleDelta_ = 1 →
      (handleUpEvent C self e).calls = [ViewCall.endInteraction self.duration_ (-1)]) ∧
    (self.lastScaleDelta_ = 0 →
      (handleUpEvent C self e).calls = [ViewCall.endInteraction self.duration_ (-1)]) := by
  have hpos : self.lastScaleDelta_ > 1 →
      (handleUpEvent C self e).calls = [ViewCall.endInteraction self.duration_ 1] := by
    intro h
    simp [handleUpEvent, hmouse, h]
  have hneg : ¬ self.lastScaleDelta_ > 1 →
      (handleUpEvent C self e).calls = [ViewCall.endInteraction self.duration_ (-1)] := by
    intro h
    simp only [handleUpEvent, hmouse, if_neg h]
    rfl
  refine ⟨by simp [handleUpEvent, hmouse], hpos, hneg, ?_, ?_⟩
  · intro h
    exact hneg (by rw [h]; exact lt_irrefl 1)
  · intro h
    exact hneg (by rw [h]; exact not_lt.mpr zero_le_one)

/-- Witness of C4 over the rationals: with `lastScaleDelta_ = 2` and duration
400, a mouse up event issues `endInteraction 400 1` and returns `false`. -/
theorem C4_up_end_interaction_witness :
    (flagCondition ℚ).mouseOnly (mouseAt 150 100) = true ∧
    (handleUpEvent (flagCondition ℚ) (midGesture ℚ) (mouseAt 150 100)).value = false ∧
    (handleUpEvent (flagCondition ℚ) (midGesture ℚ) (mouseAt 150 100)).calls
      = [ViewCall.endInteraction 400 1] :=
  ⟨rfl, (C4_up_end_interaction (flagCondition ℚ) (midGesture ℚ) (mouseAt 150 100) rfl).1,
    (C4_up_end_interaction (flagCondition ℚ) (midGesture ℚ) (mouseAt 150 100) rfl).2.1
      (by simp [midGesture])⟩

end DragRotateAndZoom

namespace DragRotateAndZoom

variable {α ε : Type}

/-! ## Down events -/

theorem endInteractionArgs_append (xs ys : List (ViewCall α)) :
    endInteractionArgs (xs ++ ys) = endInteractionArgs xs ++ endInteractionArgs ys := by
  induction xs with
  | nil => rfl
  | cons x xs ih => cases x <;> simp [endInteractionArgs, ih]

theorem handleDownEvent_endInteractionArgs (C : Condition α ε)
    (self : DragRotateAndZoom α ε) (e : MapBrowserEvent α ε) :
    endInteractionArgs (handleDownEvent C self e).calls = [] := by
  unfold handleDownEvent
  cases C.mouseOnly e <;> cases self.condition_ e <;> rfl

theorem handleDownEvent_duration (C : Condition α ε)
    (self : DragRotateAndZoom α ε) (e : MapBrowserEvent α ε) :
    (handleDownEvent C self e).self.duration_ = self.duration_ := by
  unfold handleDownEvent
  cases C.mouseOnly e <;> cases self.condition_ e <;> rfl

/-- C6: `handleDownEvent` returns `true` exactly when the device is a mouse
and the activation condition holds for the event; then it issues exactly one
View call, `beginInteraction`; in every other case it issues no View call,
returns `false` and leaves the controller as it was. -/
theorem C6_down_accept_or_ignore (C : Condition α ε) (self : DragRotateAndZoom α ε)
    (e : MapBrowserEvent α ε) :
    ((handleDownEvent C self e).value = true ↔
      (C.mouseOnly e = true ∧ self.condition_ e = true)) ∧
    ((C.mouseOnly e = true ∧ self.condition_ e = true) →
      (handleDownEvent C self e).calls = [ViewCall.beginInteraction]) ∧
    (¬ (C.mouseOnly e = true ∧ self.condition_ e = true) →
      (handleDownEvent C self e).calls = [] ∧
      (handleDownEvent C self e).value = false ∧
      (handleDownEvent C self e).self = self) := by
  unfold handleDownEvent
  cases hm : C.mouseOnly e <;> cases hc : self.condition_ e <;> simp

/-- C7, amended: an accepted down event (mouse device, activation condition
true) resets `lastAngle_` and `lastMagnitude_` to unset, whatever the
controller was before. -/
theorem C7_accepted_down_resets (C : Condition α ε) (self : DragRotateAndZoom α ε)
    (e : MapBrowserEvent α ε)
    (hmouse : C.mouseOnly e = true) (hcond : self.condition_ e = true) :
    (handleDownEvent C self e).self.lastAngle_ = none ∧
    (handleDownEvent C self e).self.lastMagnitude_ = none := by
  simp [handleDownEvent, hmouse, hcond]

/-- Witness of the amended C7: a controller left in the middle of a gesture
(angle and magnitude set) has both unset after an accepted mouse down. -/
theorem C7_accepted_down_resets_witness :
    (midGesture ℚ).lastAngle_ = some 1 ∧ (midGesture ℚ).lastMagnitude_ = some 1 ∧
    (handleDownEvent (flagCondition ℚ) (midGesture ℚ) (mouseAt 100 100)).self.lastAngle_
      = none ∧
    (handleDownEvent (flagCondition ℚ) (midGesture ℚ) (mouseAt 100 100)).self.lastMagnitude_
      = none :=
  ⟨rfl, rfl,
    C7_accepted_down_resets (flagCondition ℚ) (midGesture ℚ) (mouseAt 100 100) rfl rfl⟩

/-- Counterexample to C7 as stated: on a controller with `lastAngle_` and
`lastMagnitude_` set, a down event from a device that is not a mouse does not
leave them both unset: both are still `some 1`.  The same happens for a mouse
down event while the activation condition is false. -/
theorem C7_down_not_always_reset :
    ¬ ((handleDownEvent (flagCondition ℚ) (midGesture ℚ) (touchAt 100 100)).self.lastAngle_
        = none ∧
      (handleDownEvent (flagCondition ℚ) (midGesture ℚ) (touchAt 100 100)).self.lastMagnitude_
        = none) ∧
    (handleDownEvent (flagCondition ℚ) (midGesture ℚ) (touchAt 100 100)).self.lastAngle_
      = some 1 ∧
    (handleDownEvent (flagCondition ℚ) (midGesture ℚ) (touchAt 100 100)).self.lastMagnitude_
      = some 1 ∧
    (handleDownEvent (flagCondition ℚ) (midGestureRejecting ℚ)
      (mouseAt 100 100)).self.lastAngle_ = some 1 ∧
    (handleDownEvent (flagCondition ℚ) (midGestureRejecting ℚ)
      (mouseAt 100 100)).self.lastMagnitude_ = some 1 :=
  ⟨fun h => Option.noConfusion h.1, rfl, rfl, rfl, rfl⟩

end DragRotateAndZoom

namespace DragRotateAndZoom

variable {α ε : Type} [LinearOrderedField α]

/-! ## Up events -/

/-- C8, amended: a mouse up event resets `lastScaleDelta_` to 0, whatever its
value was before. -/
theorem C8_mouse_up_resets (C : Condition α ε) (self : DragRotateAndZoom α ε)
    (e : MapBrowserEvent α ε) (hmouse : C.mouseOnly e = true) :
    (handleUpEvent C self e).self.lastScaleDelta_ = 0 := by
  simp [handleUpEvent, hmouse]

/-- Witness of the amended C8: `lastScaleDelta_` is 2 before a mouse up event
and 0 after it. -/
theorem C8_mouse_up_resets_witness :
    (midGesture ℚ).lastScaleDelta_ = 2 ∧
    (handleUpEvent (flagCondition ℚ) (midGesture ℚ) (mouseAt 150 100)).self.lastScaleDelta_
      = 0 :=
  ⟨rfl, C8_mouse_up_resets (flagCondition ℚ) (midGesture ℚ) (mouseAt 150 100) rfl⟩

/-- Counterexample to C8 as stated: after an up event from a device that is
not a mouse, `lastScaleDelta_` is still 2, not 0. -/
theorem C8_up_not_always_reset :
    (handleUpEvent (flagCondition ℚ) (midGesture ℚ) (touchAt 150 100)).self.lastScaleDelta_
      = 2 ∧
    (handleUpEvent (flagCondition ℚ) (midGesture ℚ) (touchAt 150 100)).self.lastScaleDelta_
      ≠ 0 := by
  have h : (handleUpEvent (flagCondition ℚ) (midGesture ℚ)
      (touchAt 150 100)).self.lastScaleDelta_ = 2 := rfl
  exact ⟨h, by rw [h]; norm_num⟩

/-! ## Events of other devices -/

/-- C9: a drag or down event whose device is not a mouse leaves the
controller, and so `lastAngle_`, `lastMagnitude_` and `lastScaleDelta_`,
unchanged and issues no View call. -/
theorem C9_non_mouse_drag_down_ignored (C : Condition α ε) (M : Math α)
    (self : DragRotateAndZoom α ε) (e : MapBrowserEvent α ε)
    (hmouse : C.mouseOnly e = false) :
    ((handleDragEvent C M self e).self = self ∧ (handleDragEvent C M self e).calls = []) ∧
    ((handleDownEvent C self e).self = self ∧ (handleDownEvent C self e).calls = []) ∧
    (handleDragEvent C M self e).self.lastAngle_ = self.lastAngle_ ∧
    (handleDragEvent C M self e).self.lastMagnitude_ = self.lastMagnitude_ ∧
    (handleDragEvent C M self e).self.lastScaleDelta_ = self.lastScaleDelta_ ∧
    (handleDownEvent C self e).self.lastAngle_ = self.lastAngle_ ∧
    (handleDownEvent C self e).self.lastMagnitude_ = self.lastMagnitude_ ∧
    (handleDownEvent C self e).self.lastScaleDelta_ = self.lastScaleDelta_ := by
  simp [handleDragEvent, handleDownEvent, hmouse]

/-- Witness of C9 over the reals: a touch event at pixel `(150, 100)`, as a
drag and as a down event, on a controller in the middle of a gesture. -/
theorem C9_non_mouse_drag_down_ignored_witness :
    (flagCondition ℝ).mouseOnly (touchAt 150 100) = false ∧
    (handleDragEvent (flagCondition ℝ) Math.real (midGesture ℝ) (touchAt 150 100)).self
      = midGesture ℝ ∧
    (handleDragEvent (flagCondition ℝ) Math.real (midGesture ℝ) (touchAt 150 100)).calls
      = [] ∧
    (handleDownEvent (flagCondition ℝ) (midGesture ℝ) (touchAt 150 100)).self
      = midGesture ℝ ∧
    (handleDownEvent (flagCondition ℝ) (midGesture ℝ) (touchAt 150 100)).calls = [] :=
  have h := C9_non_mouse_drag_down_ignored (flagCondition ℝ) Math.real (midGesture ℝ)
    (touchAt 150 100) rfl
  ⟨rfl, h.1.1, h.1.2, h.2.1.1, h.2.1.2⟩

/-- C10: an up event whose device is not a mouse takes no action (no View
call, controller unchanged) and `handleUpEvent` returns `true`, whereas
`handleDownEvent` on such an event returns `false`. -/
theorem C10_non_mouse_up_returns_true (C : Condition α ε) (self : DragRotateAndZoom α ε)
    (e : MapBrowserEvent α ε) (hmouse : C.mouseOnly e = false) :
    (handleUpEvent C self e).calls = [] ∧
    (handleUpEvent C self e).self = self ∧
    (handleUpEvent C self e).value = true ∧
    (handleDownEvent C self e).value = false := by
  simp [handleUpEvent, handleDownEvent, hmouse]

/-- Witness of C10 over the rationals: a touch event at pixel `(150, 100)` on
a controller in the middle of a gesture. -/
theorem C10_non_mouse_up_returns_true_witness :
    (flagCondition ℚ).mouseOnly (touchAt 150 100) = false ∧
    (handleUpEvent (flagCondition ℚ) (midGesture ℚ) (touchAt 150 100)).calls = [] ∧
    (handleUpEvent (flagCondition ℚ) (midGesture ℚ) (touchAt 150 100)).self = midGesture ℚ ∧
    (handleUpEvent (flagCondition ℚ) (midGesture ℚ) (touchAt 150 100)).value = true ∧
    (handleDownEvent (flagCondition ℚ) (midGesture ℚ) (touchAt 150 100)).value = false :=
  ⟨rfl, C10_non_mouse_up_returns_true (flagCondition ℚ) (midGesture ℚ) (touchAt 150 100) rfl⟩

end DragRotateAndZoom

namespace DragRotateAndZoom

variable {α ε : Type} [LinearOrderedField α]

/-! ## Whole gestures -/

theorem invokeAll_append (C : Condition α ε) (M : Math α) (self : DragRotateAndZoom α ε)
    (xs ys : List (HandlerCall α ε)) :
    invokeAll C M self (xs ++ ys) =
      ⟨(invokeAll C M (invokeAll C M self xs).self ys).self,
        (invokeAll C M self xs).calls ++ (invokeAll C M (invokeAll C M self xs).self ys).calls,
        (invokeAll C M self xs).value ++ (invokeAll C M (invokeAll C M self xs).self ys).value⟩ := by
  induction xs generalizing self with
  | nil => rfl
  | cons x xs ih => simp [invokeAll, ih]

theorem handleDragEvent_endInteractionArgs (C : Condition α ε) (M : Math α)
    (self : DragRotateAndZoom α ε) (e : MapBrowserEvent α ε) :
    endInteractionArgs (handleDragEvent C M self e).calls = [] := by
  unfold handleDragEvent
  cases C.mouseOnly e <;> cases self.lastAngle_ <;> cases self.lastMagnitude_ <;> rfl

theorem handleDragEvent_duration (C : Condition α ε) (M : Math α)
    (self : DragRotateAndZoom α ε) (e : MapBrowserEvent α ε) :
    (handleDragEvent C M self e).self.duration_ = self.duration_ := by
  unfold handleDragEvent
  cases C.mouseOnly e <;> cases self.lastMagnitude_ <;> rfl

theorem invokeAll_drags_endInteractionArgs (C : Condition α ε) (M : Math α)
    (self : DragRotateAndZoom α ε) (ds : List (MapBrowserEvent α ε)) :
    endInteractionArgs (invokeAll C M self (ds.map HandlerCall.handleDragEvent)).calls
      = [] := by
  induction ds generalizing self with
  | nil => rfl
  | cons e ds ih =>
    simp [invokeAll, invoke, endInteractionArgs_append, handleDragEvent_endInteractionArgs, ih]

theorem invokeAll_drags_duration (C : Condition α ε) (M : Math α)
    (self : DragRotateAndZoom α ε) (ds : List (MapBrowserEvent α ε)) :
    (invokeAll C M self (ds.map HandlerCall.handleDragEvent)).self.duration_
      = self.duration_ := by
  induction ds generalizing self with
  | nil => rfl
  | cons e ds ih => simp [invokeAll, invoke, handleDragEvent_duration, ih]

/-- The release after two mouse samples: whatever the controller was, two
mouse drag samples followed by a mouse up end the interaction with the
direction read off the quotient of the two magnitudes. -/
theorem release_after_two_samples (C : Condition α ε) (M : Math α)
    (self : DragRotateAndZoom α ε) (e1 e2 u : MapBrowserEvent α ε)
    (h1 : C.mouseOnly e1 = true) (h2 : C.mouseOnly e2 = true) (hu : C.mouseOnly u = true) :
    endInteractionArgs (invokeAll C M self [HandlerCall.handleDragEvent e1,
      HandlerCall.handleDragEvent e2, HandlerCall.handleUpEvent u]).calls
      = [(self.duration_, if magnitude M e1 / magnitude M e2 > 1 then 1 else -1)] := by
  have hm := handleDragEvent_mouse_lastMagnitude C M self e1 h1
  have hs := handleDragEvent_mouse_lastScaleDelta C M (handleDragEvent C M self e1).self e2
    (magnitude M e1) h2 hm
  have hd : (handleDragEvent C M (handleDragEvent C M self e1).self e2).self.duration_
      = self.duration_ := by
    rw [handleDragEvent_duration, handleDragEvent_duration]
  simp only [invokeAll, invoke, endInteractionArgs_append, handleDragEvent_endInteractionArgs,
    List.nil_append, List.append_nil]
  simp only [handleUpEvent, hu, hs, hd]
  rfl

end DragRotateAndZoom

namespace DragRotateAndZoom

variable {ε : Type}

/-- C5: over the reals, for every prior controller and every gesture made of
an accepted mouse down, `n ≥ 2` mouse drag samples whose last two magnitudes
`m_prev` and `m_last` are both non-zero, and a mouse up, the gesture issues
one `endInteraction` call, whose direction is `1` exactly when
`m_prev > m_last` and `-1` otherwise. -/
theorem C5_release_direction (C : Condition ℝ ε) (self : DragRotateAndZoom ℝ ε)
    (d : MapBrowserEvent ℝ ε) (ds : List (MapBrowserEvent ℝ ε))
    (e1 e2 u : MapBrowserEvent ℝ ε)
    (_hd : C.mouseOnly d = true) (_hc : self.condition_ d = true)
    (_hds : ∀ e ∈ ds, C.mouseOnly e = true)
    (h1 : C.mouseOnly e1 = true) (h2 : C.mouseOnly e2 = true) (hu : C.mouseOnly u = true)
    (_hm1 : magnitude Math.real e1 ≠ 0) (hm2 : magnitude Math.real e2 ≠ 0) :
    endInteractionArgs (invokeAll C Math.real self
      (HandlerCall.handleDownEvent d :: (ds.map HandlerCall.handleDragEvent ++
        [HandlerCall.handleDragEvent e1, HandlerCall.handleDragEvent e2,
          HandlerCall.handleUpEvent u]))).calls
      = [(self.duration_,
          if magnitude Math.real e2 < magnitude Math.real e1 then 1 else -1)] := by
  have hpos : 0 < magnitude Math.real e2 :=
    lt_of_le_of_ne (Real.sqrt_nonneg _) (Ne.symm hm2)
  have hiff : magnitude Math.real e1 / magnitude Math.real e2 > 1
      ↔ magnitude Math.real e2 < magnitude Math.real e1 := one_lt_div hpos
  have hdir : (if magnitude Math.real e1 / magnitude Math.real e2 > 1 then (1 : ℝ) else -1)
      = if magnitude Math.real e2 < magnitude Math.real e1 then 1 else -1 := by
    by_cases h : magnitude Math.real e2 < magnitude Math.real e1
    · rw [if_pos h, if_pos (hiff.mpr h)]
    · rw [if_neg h, if_neg (fun h' => h (hiff.mp h'))]
  have hcons : ∀ (c : HandlerCall ℝ ε) (cs : List (HandlerCall ℝ ε)),
      (invokeAll C Math.real self (c :: cs)).calls
        = (invoke C Math.real self c).calls
          ++ (invokeAll C Math.real (invoke C Math.real self c).self cs).calls :=
    fun _ _ => rfl
  rw [hcons, invokeAll_append, endInteractionArgs_append, endInteractionArgs_append,
    release_after_two_samples C Math.real _ e1 e2 u h1 h2 hu, invokeAll_drags_duration,
    invokeAll_drags_endInteractionArgs, hdir]
  simp only [invoke, handleDownEvent_endInteractionArgs, handleDownEvent_duration,
    List.nil_append]

/-- Witness of C5 over the reals, from a freshly constructed controller
(duration 400): samples of magnitude 100 then 50 give the factor 2 and the
direction `1`; samples of magnitude 50 then 100 give the factor `1 / 2` and
the direction `-1`. -/
theorem C5_release_direction_witness :
    (magnitude Math.real (mouseAt (200 : ℝ) 100) = 100 ∧
      magnitude Math.real (mouseAt (150 : ℝ) 100) = 50) ∧
    (endInteractionArgs (invokeAll (flagCondition ℝ) Math.real (create (flagCondition ℝ) none)
      [HandlerCall.handleDownEvent (mouseAt 100 100), HandlerCall.handleDragEvent (mouseAt 200 100),
        HandlerCall.handleDragEvent (mouseAt 150 100),
        HandlerCall.handleUpEvent (mouseAt 150 100)]).calls = [(400, 1)] ∧
      resolutionArgs (invokeAll (flagCondition ℝ) Math.real (create (flagCondition ℝ) none)
      [HandlerCall.handleDownEvent (mouseAt 100 100), HandlerCall.handleDragEvent (mouseAt 200 100),
        HandlerCall.handleDragEvent (mouseAt 150 100),
        HandlerCall.handleUpEvent (mouseAt 150 100)]).calls = [2]) ∧
    (endInteractionArgs (invokeAll (flagCondition ℝ) Math.real (create (flagCondition ℝ) none)
      [HandlerCall.handleDownEvent (mouseAt 100 100), HandlerCall.handleDragEvent (mouseAt 150 100),
        HandlerCall.handleDragEvent (mouseAt 200 100),
        HandlerCall.handleUpEvent (mouseAt 200 100)]).calls = [(400, -1)] ∧
      resolutionArgs (invokeAll (flagCondition ℝ) Math.real (create (flagCondition ℝ) none)
      [HandlerCall.handleDownEvent (mouseAt 100 100), HandlerCall.handleDragEvent (mouseAt 150 100),
        HandlerCall.handleDragEvent (mouseAt 200 100),
        HandlerCall.handleUpEvent (mouseAt 200 100)]).calls = [1 / 2]) := by
  have m100 : magnitude Math.real (mouseAt (200 : ℝ) 100) = 100 := by
    rw [real_magnitude_mouseAt (by norm_num)]; norm_num
  have m50 : magnitude Math.real (mouseAt (150 : ℝ) 100) = 50 := by
    rw [real_magnitude_mouseAt (by norm_num)]; norm_num
  have hA := C5_release_direction (flagCondition ℝ) (create (flagCondition ℝ) none)
    (mouseAt 100 100) [] (mouseAt 200 100) (mouseAt 150 100) (mouseAt 150 100)
    rfl rfl (by simp) rfl rfl rfl (by rw [m100]; norm_num) (by rw [m50]; norm_num)
  have hB := C5_release_direction (flagCondition ℝ) (create (flagCondition ℝ) none)
    (mouseAt 100 100) [] (mouseAt 150 100) (mouseAt 200 100) (mouseAt 200 100)
    rfl rfl (by simp) rfl rfl rfl (by rw [m50]; norm_num) (by rw [m100]; norm_num)
  rw [m100, m50] at hA hB
  norm_num at hA hB
  have s100 : Math.real.sqrt ((200 - 200 / 2) * (200 - 200 / 2)
      + (200 / 2 - 100) * (200 / 2 - 100)) = 100 := m100
  have s50 : Math.real.sqrt ((150 - 200 / 2) * (150 - 200 / 2)
      + (200 / 2 - 100) * (200 / 2 - 100)) = 50 := m50
  refine ⟨⟨m100, m50⟩, ⟨?_, ?_⟩, ⟨?_, ?_⟩⟩
  · exact hA
  · simp only [invokeAll, invoke, handleDownEvent, handleDragEvent, handleUpEvent, create,
      flagCondition, mouseAt, s100, s50]
    norm_num [resolutionArgs]
  · exact hB
  · simp only [invokeAll, invoke, handleDownEvent, handleDragEvent, handleUpEvent, create,
      flagCondition, mouseAt, s100, s50]
    norm_num [resolutionArgs]

end DragRotateAndZoom

namespace DragRotateAndZoom

variable {α ε : Type} [LinearOrderedField α]

/-! ## Reachable controllers -/

/-- One handler invocation keeps `lastAngle_` and `lastMagnitude_` paired:
both unset or both set. -/
theorem invoke_paired (C : Condition α ε) (M : Math α) (self : DragRotateAndZoom α ε)
    (c : HandlerCall α ε)
    (h : self.lastAngle_.isSome = self.lastMagnitude_.isSome) :
    (invoke C M self c).self.lastAngle_.isSome
      = (invoke C M self c).self.lastMagnitude_.isSome := by
  cases c with
  | handleDownEvent e =>
    simp only [invoke, handleDownEvent]
    cases C.mouseOnly e <;> cases self.condition_ e <;> simp [h]
  | handleDragEvent e =>
    simp only [invoke, handleDragEvent]
    cases C.mouseOnly e <;> cases hm : self.lastMagnitude_ <;> simp [h, hm]
  | handleUpEvent e =>
    simp only [invoke, handleUpEvent]
    cases C.mouseOnly e <;> simp [h]

theorem invokeAll_paired (C : Condition α ε) (M : Math α) (cs : List (HandlerCall α ε))
    (self : DragRotateAndZoom α ε)
    (h : self.lastAngle_.isSome = self.lastMagnitude_.isSome) :
    (invokeAll C M self cs).self.lastAngle_.isSome
      = (invokeAll C M self cs).self.lastMagnitude_.isSome := by
  induction cs generalizing self with
  | nil => exact h
  | cons c cs ih => exact ih _ (invoke_paired C M self c h)

/-- C11: in every controller reached from a freshly constructed one (any
options) by any finite sequence of `handleDownEvent`, `handleDragEvent` and
`handleUpEvent` calls, on any events, `lastAngle_` and `lastMagnitude_` are
either both unset or both set. -/
theorem C11_angle_magnitude_paired (C : Condition α ε) (M : Math α)
    (opt_options : Option (Options α ε)) (cs : List (HandlerCall α ε)) :
    ((invokeAll C M (create C opt_options) cs).self.lastAngle_ = none ∧
      (invokeAll C M (create C opt_options) cs).self.lastMagnitude_ = none) ∨
    ((∃ a, (invokeAll C M (create C opt_options) cs).self.lastAngle_ = some a) ∧
      (∃ m, (invokeAll C M (create C opt_options) cs).self.lastMagnitude_ = some m)) := by
  have h := invokeAll_paired C M cs (create C opt_options) rfl
  cases ha : (invokeAll C M (create C opt_options) cs).self.lastAngle_ <;>
    cases hm : (invokeAll C M (create C opt_options) cs).self.lastMagnitude_ <;>
    simp [ha, hm] at h ⊢

end DragRotateAndZoom

namespace DragRotateAndZoom

variable {α ε : Type} [LinearOrderedField α]

/-! ## Where the previous sample is forgotten -/

/-- C13: `lastAngle_` and `lastMagnitude_` are reset to unset exactly at
gesture start.  If a handler call finds `lastAngle_` or `lastMagnitude_` set
and leaves it unset, the call is a `handleDownEvent` on a mouse event that
satisfies the activation condition, and every such call does unset both;
`handleUpEvent` leaves both fields as they were, `handleDragEvent` never unsets
one, and a mouse drag sample leaves both set. -/
theorem C13_unset_only_at_gesture_start (C : Condition α ε) (M : Math α)
    (self : DragRotateAndZoom α ε) :
    (∀ c : HandlerCall α ε,
      ((self.lastAngle_ ≠ none ∧ (invoke C M self c).self.lastAngle_ = none) ∨
        (self.lastMagnitude_ ≠ none ∧ (invoke C M self c).self.lastMagnitude_ = none)) →
      ∃ e, c = HandlerCall.handleDownEvent e ∧ C.mouseOnly e = true ∧
        self.condition_ e = true) ∧
    (∀ e, C.mouseOnly e = true → self.condition_ e = true →
      (handleDownEvent C self e).self.lastAngle_ = none ∧
      (handleDownEvent C self e).self.lastMagnitude_ = none) ∧
    (∀ e, (handleUpEvent C self e).self.lastAngle_ = self.lastAngle_ ∧
      (handleUpEvent C self e).self.lastMagnitude_ = self.lastMagnitude_) ∧
    (∀ e, (self.lastAngle_ ≠ none → (handleDragEvent C M self e).self.lastAngle_ ≠ none) ∧
      (self.lastMagnitude_ ≠ none →
        (handleDragEvent C M self e).self.lastMagnitude_ ≠ none)) ∧
    (∀ e, C.mouseOnly e = true →
      (∃ a, (handleDragEvent C M self e).self.lastAngle_ = some a) ∧
      (∃ m, (handleDragEvent C M self e).self.lastMagnitude_ = some m)) := by
  have hup : ∀ e, (handleUpEvent C self e).self.lastAngle_ = self.lastAngle_ ∧
      (handleUpEvent C self e).self.lastMagnitude_ = self.lastMagnitude_ := by
    intro e
    unfold handleUpEvent
    cases C.mouseOnly e <;> exact ⟨rfl, rfl⟩
  have hdrag : ∀ e,
      (self.lastAngle_ ≠ none → (handleDragEvent C M self e).self.lastAngle_ ≠ none) ∧
      (self.lastMagnitude_ ≠ none →
        (handleDragEvent C M self e).self.lastMagnitude_ ≠ none) := by
    intro e
    cases hm : C.mouseOnly e
    · have hs : (handleDragEvent C M self e).self = self := by
        simp [handleDragEvent, hm]
      rw [hs]
      exact ⟨id, id⟩
    · rw [handleDragEvent_mouse_lastAngle C M self e hm,
        handleDragEvent_mouse_lastMagnitude C M self e hm]
      exact ⟨fun _ => Option.some_ne_none _, fun _ => Option.some_ne_none _⟩
  refine ⟨?_, ?_, hup, hdrag, ?_⟩
  · intro c h
    cases c with
    | handleDownEvent e =>
      refine ⟨e, rfl, ?_⟩
      cases hm : C.mouseOnly e <;> cases hc : self.condition_ e <;>
        simp [invoke, handleDownEvent, hm, hc] at h ⊢
    | handleDragEvent e =>
      exfalso
      rcases h with ⟨h1, h2⟩ | ⟨h1, h2⟩
      · exact (hdrag e).1 h1 h2
      · exact (hdrag e).2 h1 h2
    | handleUpEvent e =>
      exfalso
      rcases h with ⟨h1, h2⟩ | ⟨h1, h2⟩
      · exact h1 ((hup e).1 ▸ h2)
      · exact h1 ((hup e).2 ▸ h2)
  · intro e hm hc
    simp [handleDownEvent, hm, hc]
  · intro e hm
    exact ⟨⟨_, handleDragEvent_mouse_lastAngle C M self e hm⟩,
      ⟨_, handleDragEvent_mouse_lastMagnitude C M self e hm⟩⟩

/-! ## The configured duration -/

theorem invoke_duration (C : Condition α ε) (M : Math α) (self : DragRotateAndZoom α ε)
    (c : HandlerCall α ε) : (invoke C M self c).self.duration_ = self.duration_ := by
  cases c with
  | handleDownEvent e => exact handleDownEvent_duration C self e
  | handleDragEvent e => exact handleDragEvent_duration C M self e
  | handleUpEvent e =>
    simp only [invoke, handleUpEvent]
    cases C.mouseOnly e <;> rfl

theorem invokeAll_duration (C : Condition α ε) (M : Math α) (cs : List (HandlerCall α ε))
    (self : DragRotateAndZoom α ε) :
    (invokeAll C M self cs).self.duration_ = self.duration_ := by
  induction cs generalizing self with
  | nil => rfl
  | cons c cs ih => exact (ih _).trans (invoke_duration C M self c)

theorem handleUpEvent_mouse_calls (C : Condition α ε) (self : DragRotateAndZoom α ε)
    (e : MapBrowserEvent α ε) (hmouse : C.mouseOnly e = true) :
    (handleUpEvent C self e).calls
      = [ViewCall.endInteraction self.duration_
          (if self.lastScaleDelta_ > 1 then 1 else -1)] := by
  simp [handleUpEvent, hmouse]

/-- C14: whatever handler calls came since construction, the duration a mouse
up event passes to `endInteraction` is 400 when the controller was constructed
with no options or with options that have no duration, and is the supplied
duration otherwise, whatever number that is (0 included). -/
theorem C14_release_duration (C : Condition α ε) (M : Math α)
    (cs : List (HandlerCall α ε)) (u : MapBrowserEvent α ε)
    (hmouse : C.mouseOnly u = true) :
    (∃ direction, (handleUpEvent C (invokeAll C M (create C none) cs).self u).calls
      = [ViewCall.endInteraction 400 direction]) ∧
    (∀ condition, ∃ direction,
      (handleUpEvent C (invokeAll C M (create C (some ⟨condition, none⟩)) cs).self u).calls
        = [ViewCall.endInteraction 400 direction]) ∧
    (∀ condition duration, ∃ direction,
      (handleUpEvent C
        (invokeAll C M (create C (some ⟨condition, some duration⟩)) cs).self u).calls
        = [ViewCall.endInteraction duration direction]) := by
  have key : ∀ s : DragRotateAndZoom α ε,
      (handleUpEvent C (invokeAll C M s cs).self u).calls
        = [ViewCall.endInteraction s.duration_
            (if (invokeAll C M s cs).self.lastScaleDelta_ > 1 then 1 else -1)] := by
    intro s
    rw [handleUpEvent_mouse_calls C _ u hmouse, invokeAll_duration]
  exact ⟨⟨_, key _⟩, fun _ => ⟨_, key _⟩, fun _ _ => ⟨_, key _⟩⟩

/-- Witness of C14 over the reals: a controller constructed with duration 0,
after an accepted down event, ends the interaction with duration 0 (not 400)
on a mouse up event. -/
theorem C14_release_duration_witness :
    (flagCondition ℝ).mouseOnly (mouseAt 100 100) = true ∧
    (handleUpEvent (flagCondition ℝ)
      (invokeAll (flagCondition ℝ) Math.real (create (flagCondition ℝ) (some ⟨none, some 0⟩))
        [HandlerCall.handleDownEvent (mouseAt 100 100)]).self (mouseAt 100 100)).calls
      = [ViewCall.endInteraction 0 (-1)] := by
  refine ⟨rfl, ?_⟩
  obtain ⟨direction, h⟩ := (C14_release_duration (flagCondition ℝ) Math.real
    [HandlerCall.handleDownEvent (mouseAt 100 100)] (mouseAt 100 100) rfl).2.2 none 0
  rw [h]
  have h2 := h
  rw [handleUpEvent_mouse_calls _ _ _ rfl] at h2
  simp only [invokeAll, invoke, handleDownEvent, create, flagCondition, mouseAt] at h2
  norm_num at h2
  rw [← h2]

end DragRotateAndZoom

namespace DragRotateAndZoom

variable {α ε : Type}

/-! ## A gesture after an abandoned one -/

/-- Two controllers that agree on every field but `lastScaleDelta_`, and on
`lastScaleDelta_` too, are the same controller. -/
theorem sameButScaleDelta_eq (s1 s2 : DragRotateAndZoom α ε) (h : sameButScaleDelta s1 s2)
    (hl : s1.lastScaleDelta_ = s2.lastScaleDelta_) : s1 = s2 := by
  obtain ⟨hc, ha, hm, hd⟩ := h
  cases s1
  cases s2
  simp only at hc ha hm hd hl
  subst hc ha hm hd hl
  rfl

/-- An accepted down event makes two controllers of the same configuration
agree on every field but `lastScaleDelta_`, which it leaves as it was, and
leaves `lastMagnitude_` unset. -/
theorem handleDownEvent_accepted_same (C : Condition α ε) (s1 s2 : DragRotateAndZoom α ε)
    (d : MapBrowserEvent α ε) (hcond : s1.condition_ = s2.condition_)
    (hdur : s1.duration_ = s2.duration_)
    (hmouse : C.mouseOnly d = true) (haccept : s1.condition_ d = true) :
    sameButScaleDelta (handleDownEvent C s1 d).self (handleDownEvent C s2 d).self ∧
    (handleDownEvent C s1 d).calls = (handleDownEvent C s2 d).calls ∧
    (handleDownEvent C s1 d).value = (handleDownEvent C s2 d).value ∧
    (handleDownEvent C s1 d).self.lastMagnitude_ = none ∧
    (handleDownEvent C s1 d).self.lastScaleDelta_ = s1.lastScaleDelta_ ∧
    (handleDownEvent C s2 d).self.lastScaleDelta_ = s2.lastScaleDelta_ := by
  have haccept2 : s2.condition_ d = true := hcond ▸ haccept
  refine ⟨?_, ?_, ?_, ?_, ?_, ?_⟩ <;>
    simp [handleDownEvent, hmouse, haccept, haccept2, sameButScaleDelta, hcond, hdur]

end DragRotateAndZoom

namespace DragRotateAndZoom

variable {α ε : Type} [LinearOrderedField α]

/-- One handler invocation on two controllers that agree on every field but
`lastScaleDelta_`.  The returned values are the same, and either the View
calls are the same, none of them `endInteraction`, and the controllers end
equal or still agree so with `lastScaleDelta_` untouched; or the invocation is
a mouse up, which issues `endInteraction` with the direction read off each
`lastScaleDelta_` and leaves the two controllers equal. -/
theorem invoke_sync (C : Condition α ε) (M : Math α)
    (s1 s2 : DragRotateAndZoom α ε) (c : HandlerCall α ε) (h : sameButScaleDelta s1 s2) :
    (invoke C M s1 c).value = (invoke C M s2 c).value ∧
    (((invoke C M s1 c).calls = (invoke C M s2 c).calls ∧
        endInteractionArgs (invoke C M s1 c).calls = [] ∧
        ((invoke C M s1 c).self = (invoke C M s2 c).self ∨
          (sameButScaleDelta (invoke C M s1 c).self (invoke C M s2 c).self ∧
            (invoke C M s1 c).self.lastScaleDelta_ = s1.lastScaleDelta_ ∧
            (invoke C M s2 c).self.lastScaleDelta_ = s2.lastScaleDelta_))) ∨
      ((invoke C M s1 c).calls = [ViewCall.endInteraction s1.duration_
          (if s1.lastScaleDelta_ > 1 then 1 else -1)] ∧
        (invoke C M s2 c).calls = [ViewCall.endInteraction s1.duration_
          (if s2.lastScaleDelta_ > 1 then 1 else -1)] ∧
        (invoke C M s1 c).self = (invoke C M s2 c).self)) := by
  obtain ⟨hc, ha, hm, hd⟩ := h
  cases s1 with
  | mk c1 a1 m1 l1 d1 =>
    cases s2 with
    | mk c2 a2 m2 l2 d2 =>
      simp only at hc ha hm hd
      subst hc ha hm hd
      cases c with
      | handleDownEvent e =>
        simp only [invoke, handleDownEvent]
        cases C.mouseOnly e <;> cases c1 e <;>
          simp [sameButScaleDelta, endInteractionArgs]
      | handleDragEvent e =>
        simp only [invoke, handleDragEvent]
        cases C.mouseOnly e <;> cases a1 <;> cases m1 <;>
          simp [sameButScaleDelta, endInteractionArgs]
      | handleUpEvent e =>
        simp only [invoke, handleUpEvent]
        cases C.mouseOnly e <;> simp [sameButScaleDelta, endInteractionArgs]

/-- A sequence of handler invocations on two controllers that agree on every
field but `lastScaleDelta_`: the returned values are the same, and the View
calls are the same except, at most, for the direction of the first
`endInteraction`, read off each `lastScaleDelta_`. -/
theorem invokeAll_sync (C : Condition α ε) (M : Math α)
    (cs : List (HandlerCall α ε)) (s1 s2 : DragRotateAndZoom α ε)
    (h : sameButScaleDelta s1 s2) :
    (invokeAll C M s1 cs).value = (invokeAll C M s2 cs).value ∧
    ((invokeAll C M s1 cs).calls = (invokeAll C M s2 cs).calls ∨
      ∃ p q t, endInteractionArgs p = [] ∧
        (invokeAll C M s1 cs).calls = p ++ ViewCall.endInteraction t
          (if s1.lastScaleDelta_ > 1 then 1 else -1) :: q ∧
        (invokeAll C M s2 cs).calls = p ++ ViewCall.endInteraction t
          (if s2.lastScaleDelta_ > 1 then 1 else -1) :: q) := by
  induction cs generalizing s1 s2 with
  | nil => exact ⟨rfl, Or.inl rfl⟩
  | cons c cs ih =>
    have hcalls : ∀ s : DragRotateAndZoom α ε, (invokeAll C M s (c :: cs)).calls
        = (invoke C M s c).calls ++ (invokeAll C M (invoke C M s c).self cs).calls :=
      fun _ => rfl
    have hvalue : ∀ s : DragRotateAndZoom α ε, (invokeAll C M s (c :: cs)).value
        = (invoke C M s c).value :: (invokeAll C M (invoke C M s c).self cs).value :=
      fun _ => rfl
    obtain ⟨hv, hcase⟩ := invoke_sync C M s1 s2 c h
    rw [hcalls, hcalls, hvalue, hvalue, hv]
    rcases hcase with ⟨hc, hend, hself | ⟨hsame, hl1, hl2⟩⟩ | ⟨hc1, hc2, hself⟩
    · rw [hc, hself]
      exact ⟨rfl, Or.inl rfl⟩
    · obtain ⟨hvs, hcs⟩ := ih _ _ hsame
      rw [hvs, hc]
      refine ⟨rfl, ?_⟩
      rcases hcs with heq | ⟨p, q, t, hp, h1, h2⟩
      · rw [heq]
        exact Or.inl rfl
      · refine Or.inr ⟨(invoke C M s2 c).calls ++ p, q, t, ?_, ?_, ?_⟩
        · rw [endInteractionArgs_append, ← hc, hend, hp]
          rfl
        · rw [h1, hl1, List.append_assoc]
        · rw [h2, hl2, List.append_assoc]
    · rw [hc1, hc2, hself]
      exact ⟨rfl, Or.inr ⟨[], _, _, rfl, rfl, rfl⟩⟩

/-- Handler invocations other than mouse down and mouse up events, on two
controllers that agree on every field but `lastScaleDelta_`: the View calls
and returned values are the same, and the controllers are equal once a mouse
sample has found a previous magnitude: after one mouse sample if
`lastMagnitude_` was set, after two in any case. -/
theorem invokeAll_samples_sync (C : Condition α ε) (M : Math α)
    (pre : List (HandlerCall α ε)) (hpre : ∀ c ∈ pre, isMouseDownOrUp C c = false)
    (s1 s2 : DragRotateAndZoom α ε) (h : sameButScaleDelta s1 s2) :
    (invokeAll C M s1 pre).calls = (invokeAll C M s2 pre).calls ∧
    ((s1.lastMagnitude_ ≠ none ∧ 1 ≤ pre.countP (isMouseSample C)) ∨
        2 ≤ pre.countP (isMouseSample C) →
      (invokeAll C M s1 pre).self = (invokeAll C M s2 pre).self) := by
  induction pre generalizing s1 s2 with
  | nil =>
    refine ⟨rfl, ?_⟩
    intro hcount
    simp at hcount
  | cons c pre ih =>
    have hc0 : isMouseDownOrUp C c = false := hpre c (List.mem_cons_self c pre)
    have hpre' : ∀ x ∈ pre, isMouseDownOrUp C x = false :=
      fun x hx => hpre x (List.mem_cons_of_mem c hx)
    have hcalls : ∀ s : DragRotateAndZoom α ε, (invokeAll C M s (c :: pre)).calls
        = (invoke C M s c).calls ++ (invokeAll C M (invoke C M s c).self pre).calls :=
      fun _ => rfl
    have hself : ∀ s : DragRotateAndZoom α ε, (invokeAll C M s (c :: pre)).self
        = (invokeAll C M (invoke C M s c).self pre).self := fun _ => rfl
    obtain ⟨_, hcase⟩ := invoke_sync C M s1 s2 c h
    have hstep : (invoke C M s1 c).calls = (invoke C M s2 c).calls ∧
        ((invoke C M s1 c).self = (invoke C M s2 c).self ∨
          sameButScaleDelta (invoke C M s1 c).self (invoke C M s2 c).self) := by
      rcases hcase with ⟨hc, _, hs | ⟨hs, _, _⟩⟩ | ⟨hc1, _, _⟩
      · exact ⟨hc, Or.inl hs⟩
      · exact ⟨hc, Or.inr hs⟩
      · exfalso
        cases c with
        | handleDownEvent e =>
          have hm : C.mouseOnly e = false := hc0
          simp [invoke, handleDownEvent, hm] at hc1
        | handleDragEvent e =>
          have hnone := handleDragEvent_endInteractionArgs C M s1 e
          have hc1' : (handleDragEvent C M s1 e).calls = [ViewCall.endInteraction s1.duration_
              (if s1.lastScaleDelta_ > 1 then 1 else -1)] := hc1
          rw [hc1'] at hnone
          simp [endInteractionArgs] at hnone
        | handleUpEvent e =>
          have hm : C.mouseOnly e = false := hc0
          simp [invoke, handleUpEvent, hm] at hc1
    rw [hcalls, hcalls, hself, hself, hstep.1]
    rcases hstep.2 with heq | hsame
    · rw [heq]
      exact ⟨rfl, fun _ => rfl⟩
    · obtain ⟨hcs, hfinal⟩ := ih hpre' _ _ hsame
      rw [hcs]
      refine ⟨rfl, ?_⟩
      intro hcount
      cases hsample : isMouseSample C c
      · have hs1 : (invoke C M s1 c).self = s1 := by
          cases c with
          | handleDownEvent e =>
            have hm : C.mouseOnly e = false := hc0
            simp [invoke, handleDownEvent, hm]
          | handleDragEvent e =>
            have hm : C.mouseOnly e = false := hsample
            simp [invoke, handleDragEvent, hm]
          | handleUpEvent e =>
            have hm : C.mouseOnly e = false := hc0
            simp [invoke, handleUpEvent, hm]
        apply hfinal
        rw [hs1]
        simpa [List.countP_cons, hsample] using hcount
      · cases c with
        | handleDownEvent e => simp [isMouseSample] at hsample
        | handleUpEvent e => simp [isMouseSample] at hsample
        | handleDragEvent e =>
          have hm : C.mouseOnly e = true := hsample
          have hinv : ∀ s : DragRotateAndZoom α ε,
              (invoke C M s (HandlerCall.handleDragEvent e)).self
                = (handleDragEvent C M s e).self := fun _ => rfl
          rw [hinv, hinv] at hsame hfinal ⊢
          cases hmag : s1.lastMagnitude_ with
          | some m =>
            have hmag2 : s2.lastMagnitude_ = some m := h.2.2.1 ▸ hmag
            have hl : (handleDragEvent C M s1 e).self.lastScaleDelta_
                = (handleDragEvent C M s2 e).self.lastScaleDelta_ := by
              rw [handleDragEvent_mouse_lastScaleDelta C M s1 e m hm hmag,
                handleDragEvent_mouse_lastScaleDelta C M s2 e m hm hmag2]
            rw [sameButScaleDelta_eq _ _ hsame hl]
          | none =>
            apply hfinal
            left
            refine ⟨?_, ?_⟩
            · rw [handleDragEvent_mouse_lastMagnitude C M s1 e hm]
              exact Option.some_ne_none _
            · rcases hcount with ⟨hne, _⟩ | h2
              · exact absurd hmag hne
              · simp only [List.countP_cons, hsample, if_true] at h2
                omega

/-- C12, amended: for two prior controllers of the same configuration
(`condition_` and `duration_`) and any sequence of handler calls that begins
with an accepted mouse down, the two runs return the same values and issue the
same View calls with the same arguments, with one possible exception: the
direction passed to the first `endInteraction`, which is `1` or `-1` according
to whether the prior `lastScaleDelta_` exceeds 1.  The two runs issue the same
View calls outright when the two controllers agree on `lastScaleDelta_`, or on
whether it exceeds 1, and when at least two mouse drag samples come before
the next mouse up or mouse down event. -/
theorem C12_next_gesture_differs_only_in_first_release (C : Condition α ε) (M : Math α)
    (s1 s2 : DragRotateAndZoom α ε) (d : MapBrowserEvent α ε)
    (rest : List (HandlerCall α ε))
    (hcond : s1.condition_ = s2.condition_) (hdur : s1.duration_ = s2.duration_)
    (hmouse : C.mouseOnly d = true) (haccept : s1.condition_ d = true) :
    (invokeAll C M s1 (HandlerCall.handleDownEvent d :: rest)).value
      = (invokeAll C M s2 (HandlerCall.handleDownEvent d :: rest)).value ∧
    ((invokeAll C M s1 (HandlerCall.handleDownEvent d :: rest)).calls
        = (invokeAll C M s2 (HandlerCall.handleDownEvent d :: rest)).calls ∨
      ∃ p q t, endInteractionArgs p = [] ∧
        (invokeAll C M s1 (HandlerCall.handleDownEvent d :: rest)).calls
          = p ++ ViewCall.endInteraction t (if s1.lastScaleDelta_ > 1 then 1 else -1) :: q ∧
        (invokeAll C M s2 (HandlerCall.handleDownEvent d :: rest)).calls
          = p ++ ViewCall.endInteraction t (if s2.lastScaleDelta_ > 1 then 1 else -1) :: q) ∧
    (s1.lastScaleDelta_ = s2.lastScaleDelta_ →
      (invokeAll C M s1 (HandlerCall.handleDownEvent d :: rest)).calls
        = (invokeAll C M s2 (HandlerCall.handleDownEvent d :: rest)).calls) ∧
    ((s1.lastScaleDelta_ > 1 ↔ s2.lastScaleDelta_ > 1) →
      (invokeAll C M s1 (HandlerCall.handleDownEvent d :: rest)).calls
        = (invokeAll C M s2 (HandlerCall.handleDownEvent d :: rest)).calls) ∧
    (∀ pre tail : List (HandlerCall α ε), rest = pre ++ tail →
      (∀ c ∈ pre, isMouseDownOrUp C c = false) → 2 ≤ pre.countP (isMouseSample C) →
      (invokeAll C M s1 (HandlerCall.handleDownEvent d :: rest)).calls
        = (invokeAll C M s2 (HandlerCall.handleDownEvent d :: rest)).calls) := by
  obtain ⟨hs, hc, hv, _, hl1, hl2⟩ :=
    handleDownEvent_accepted_same C s1 s2 d hcond hdur hmouse haccept
  have hcalls : ∀ s : DragRotateAndZoom α ε,
      (invokeAll C M s (HandlerCall.handleDownEvent d :: rest)).calls
        = (handleDownEvent C s d).calls
          ++ (invokeAll C M (handleDownEvent C s d).self rest).calls := fun _ => rfl
  have hvalue : ∀ s : DragRotateAndZoom α ε,
      (invokeAll C M s (HandlerCall.handleDownEvent d :: rest)).value
        = some (handleDownEvent C s d).value
          :: (invokeAll C M (handleDownEvent C s d).self rest).value := fun _ => rfl
  obtain ⟨hvs, hcs⟩ := invokeAll_sync C M rest _ _ hs
  rw [hl1, hl2] at hcs
  have hfirst : (invokeAll C M s1 (HandlerCall.handleDownEvent d :: rest)).calls
        = (invokeAll C M s2 (HandlerCall.handleDownEvent d :: rest)).calls ∨
      ∃ p q t, endInteractionArgs p = [] ∧
        (invokeAll C M s1 (HandlerCall.handleDownEvent d :: rest)).calls
          = p ++ ViewCall.endInteraction t (if s1.lastScaleDelta_ > 1 then 1 else -1) :: q ∧
        (invokeAll C M s2 (HandlerCall.handleDownEvent d :: rest)).calls
          = p ++ ViewCall.endInteraction t
            (if s2.lastScaleDelta_ > 1 then 1 else -1) :: q := by
    rw [hcalls, hcalls, hc]
    rcases hcs with heq | ⟨p, q, t, hp, h1, h2⟩
    · rw [heq]
      exact Or.inl rfl
    · refine Or.inr ⟨(handleDownEvent C s2 d).calls ++ p, q, t, ?_, ?_, ?_⟩
      · rw [endInteractionArgs_append, handleDownEvent_endInteractionArgs, hp]
        rfl
      · rw [h1, List.append_assoc]
      · rw [h2, List.append_assoc]
  have hdir : (s1.lastScaleDelta_ > 1 ↔ s2.lastScaleDelta_ > 1) →
      (invokeAll C M s1 (HandlerCall.handleDownEvent d :: rest)).calls
        = (invokeAll C M s2 (HandlerCall.handleDownEvent d :: rest)).calls := by
    intro hiff
    rcases hfirst with heq | ⟨p, q, t, _, h1, h2⟩
    · exact heq
    · rw [h1, h2]
      by_cases hgt : s1.lastScaleDelta_ > 1
      · rw [if_pos hgt, if_pos (hiff.mp hgt)]
      · rw [if_neg hgt, if_neg (fun h' => hgt (hiff.mpr h'))]
  refine ⟨?_, hfirst, fun hl => hdir (by rw [hl]), hdir, ?_⟩
  · rw [hvalue, hvalue, hv, hvs]
  · intro pre tail hrest hpre hcount
    obtain ⟨hpc, hpf⟩ := invokeAll_samples_sync C M pre hpre _ _ hs
    rw [hcalls, hcalls, hc, hrest, invokeAll_append, invokeAll_append]
    simp only
    rw [hpc, hpf (Or.inr hcount)]

end DragRotateAndZoom

namespace DragRotateAndZoom

/-- Witness of the amended C12 over the reals: a controller in the middle of a
gesture (`lastScaleDelta_ = 2`) and a freshly constructed one
(`lastScaleDelta_ = 0`), followed by an accepted mouse down, two drag samples
and a mouse up: the same returned values and the same View calls. -/
theorem C12_next_gesture_differs_only_in_first_release_witness :
    ((midGesture ℝ).condition_ = (create (flagCondition ℝ) none).condition_ ∧
      (midGesture ℝ).duration_ = (create (flagCondition ℝ) none).duration_) ∧
    (invokeAll (flagCondition ℝ) Math.real (midGesture ℝ)
        [HandlerCall.handleDownEvent (mouseAt 100 100),
          HandlerCall.handleDragEvent (mouseAt 200 100),
          HandlerCall.handleDragEvent (mouseAt 150 100),
          HandlerCall.handleUpEvent (mouseAt 150 100)]).value
      = (invokeAll (flagCondition ℝ) Math.real (create (flagCondition ℝ) none)
        [HandlerCall.handleDownEvent (mouseAt 100 100),
          HandlerCall.handleDragEvent (mouseAt 200 100),
          HandlerCall.handleDragEvent (mouseAt 150 100),
          HandlerCall.handleUpEvent (mouseAt 150 100)]).value ∧
    (invokeAll (flagCondition ℝ) Math.real (midGesture ℝ)
        [HandlerCall.handleDownEvent (mouseAt 100 100),
          HandlerCall.handleDragEvent (mouseAt 200 100),
          HandlerCall.handleDragEvent (mouseAt 150 100),
          HandlerCall.handleUpEvent (mouseAt 150 100)]).calls
      = (invokeAll (flagCondition ℝ) Math.real (create (flagCondition ℝ) none)
        [HandlerCall.handleDownEvent (mouseAt 100 100),
          HandlerCall.handleDragEvent (mouseAt 200 100),
          HandlerCall.handleDragEvent (mouseAt 150 100),
          HandlerCall.handleUpEvent (mouseAt 150 100)]).calls :=
  have h := C12_next_gesture_differs_only_in_first_release (flagCondition ℝ) Math.real
    (midGesture ℝ) (create (flagCondition ℝ) none) (mouseAt 100 100)
    [HandlerCall.handleDragEvent (mouseAt 200 100), HandlerCall.handleDragEvent (mouseAt 150 100),
      HandlerCall.handleUpEvent (mouseAt 150 100)]
    rfl rfl rfl rfl
  ⟨⟨rfl, rfl⟩, h.1,
    h.2.2.2.2
      [HandlerCall.handleDragEvent (mouseAt 200 100), HandlerCall.handleDragEvent (mouseAt 150 100)]
      [HandlerCall.handleUpEvent (mouseAt 150 100)] rfl
      (by simp [isMouseDownOrUp]) (by simp [isMouseSample, flagCondition, mouseAt])⟩

/-- Counterexample to C12 as stated.  The first controller is left by an
abandoned gesture (an accepted down and two samples of magnitude 100 and 50,
no up event), the second is freshly constructed; they have the same
configuration.  The next gesture, an accepted mouse down, one drag sample and
a mouse up, ends with direction `1` on the first and `-1` on the second. -/
theorem C12_abandoned_gesture_leaks_direction :
    ((invokeAll (flagCondition ℝ) Math.real (create (flagCondition ℝ) none)
        [HandlerCall.handleDownEvent (mouseAt 100 100),
          HandlerCall.handleDragEvent (mouseAt 200 100),
          HandlerCall.handleDragEvent (mouseAt 150 100)]).self.condition_
        = (create (flagCondition ℝ) none).condition_ ∧
      (invokeAll (flagCondition ℝ) Math.real (create (flagCondition ℝ) none)
        [HandlerCall.handleDownEvent (mouseAt 100 100),
          HandlerCall.handleDragEvent (mouseAt 200 100),
          HandlerCall.handleDragEvent (mouseAt 150 100)]).self.duration_
        = (create (flagCondition ℝ) none).duration_) ∧
    (invokeAll (flagCondition ℝ) Math.real
      (invokeAll (flagCondition ℝ) Math.real (create (flagCondition ℝ) none)
        [HandlerCall.handleDownEvent (mouseAt 100 100),
          HandlerCall.handleDragEvent (mouseAt 200 100),
          HandlerCall.handleDragEvent (mouseAt 150 100)]).self
      [HandlerCall.handleDownEvent (mouseAt 100 100),
        HandlerCall.handleDragEvent (mouseAt 200 100),
        HandlerCall.handleUpEvent (mouseAt 200 100)]).calls
      = [ViewCall.beginInteraction, ViewCall.endInteraction 400 1] ∧
    (invokeAll (flagCondition ℝ) Math.real (create (flagCondition ℝ) none)
      [HandlerCall.handleDownEvent (mouseAt 100 100),
        HandlerCall.handleDragEvent (mouseAt 200 100),
        HandlerCall.handleUpEvent (mouseAt 200 100)]).calls
      = [ViewCall.beginInteraction, ViewCall.endInteraction 400 (-1)] ∧
    (invokeAll (flagCondition ℝ) Math.real
      (invokeAll (flagCondition ℝ) Math.real (create (flagCondition ℝ) none)
        [HandlerCall.handleDownEvent (mouseAt 100 100),
          HandlerCall.handleDragEvent (mouseAt 200 100),
          HandlerCall.handleDragEvent (mouseAt 150 100)]).self
      [HandlerCall.handleDownEvent (mouseAt 100 100),
        HandlerCall.handleDragEvent (mouseAt 200 100),
        HandlerCall.handleUpEvent (mouseAt 200 100)]).calls
      ≠ (invokeAll (flagCondition ℝ) Math.real (create (flagCondition ℝ) none)
      [HandlerCall.handleDownEvent (mouseAt 100 100),
        HandlerCall.handleDragEvent (mouseAt 200 100),
        HandlerCall.handleUpEvent (mouseAt 200 100)]).calls := by
  have s100 : Math.real.sqrt ((200 - 200 / 2) * (200 - 200 / 2)
      + (200 / 2 - 100) * (200 / 2 - 100)) = 100 := by
    have h := @real_magnitude_mouseAt 200 (by norm_num)
    rw [show magnitude Math.real (mouseAt (200 : ℝ) 100) = Math.real.sqrt
      ((200 - 200 / 2) * (200 - 200 / 2) + (200 / 2 - 100) * (200 / 2 - 100)) from rfl] at h
    rw [h]; norm_num
  have s50 : Math.real.sqrt ((150 - 200 / 2) * (150 - 200 / 2)
      + (200 / 2 - 100) * (200 / 2 - 100)) = 50 := by
    have h := @real_magnitude_mouseAt 150 (by norm_num)
    rw [show magnitude Math.real (mouseAt (150 : ℝ) 100) = Math.real.sqrt
      ((150 - 200 / 2) * (150 - 200 / 2) + (200 / 2 - 100) * (200 / 2 - 100)) from rfl] at h
    rw [h]; norm_num
  have h1 : (invokeAll (flagCondition ℝ) Math.real
      (invokeAll (flagCondition ℝ) Math.real (create (flagCondition ℝ) none)
        [HandlerCall.handleDownEvent (mouseAt 100 100),
          HandlerCall.handleDragEvent (mouseAt 200 100),
          HandlerCall.handleDragEvent (mouseAt 150 100)]).self
      [HandlerCall.handleDownEvent (mouseAt 100 100),
        HandlerCall.handleDragEvent (mouseAt 200 100),
        HandlerCall.handleUpEvent (mouseAt 200 100)]).calls
      = [ViewCall.beginInteraction, ViewCall.endInteraction 400 1] := by
    simp only [invokeAll, invoke, handleDownEvent, handleDragEvent, handleUpEvent, create,
      flagCondition, mouseAt, s100, s50]
    norm_num
  have h2 : (invokeAll (flagCondition ℝ) Math.real (create (flagCondition ℝ) none)
      [HandlerCall.handleDownEvent (mouseAt 100 100),
        HandlerCall.handleDragEvent (mouseAt 200 100),
        HandlerCall.handleUpEvent (mouseAt 200 100)]).calls
      = [ViewCall.beginInteraction, ViewCall.endInteraction 400 (-1)] := by
    simp only [invokeAll, invoke, handleDownEvent, handleDragEvent, handleUpEvent, create,
      flagCondition, mouseAt]
    norm_num
  refine ⟨⟨rfl, rfl⟩, h1, h2, ?_⟩
  rw [h1, h2]
  norm_num

end DragRotateAndZoom

namespace DragRotateAndZoom

variable {α ε : Type}

/-! ## Rotation and resolution calls of a trace -/

theorem rotationArgs_append (xs ys : List (ViewCall α)) :
    rotationArgs (xs ++ ys) = rotationArgs xs ++ rotationArgs ys := by
  induction xs with
  | nil => rfl
  | cons x xs ih => cases x <;> simp [rotationArgs, ih]

theorem resolutionArgs_append (xs ys : List (ViewCall α)) :
    resolutionArgs (xs ++ ys) = resolutionArgs xs ++ resolutionArgs ys := by
  induction xs with
  | nil => rfl
  | cons x xs ih => cases x <;> simp [resolutionArgs, ih]

theorem handleDownEvent_rotationArgs (C : Condition α ε)
    (self : DragRotateAndZoom α ε) (e : MapBrowserEvent α ε) :
    rotationArgs (handleDownEvent C self e).calls = [] := by
  unfold handleDownEvent
  cases C.mouseOnly e <;> cases self.condition_ e <;> rfl

theorem handleDownEvent_resolutionArgs (C : Condition α ε)
    (self : DragRotateAndZoom α ε) (e : MapBrowserEvent α ε) :
    resolutionArgs (handleDownEvent C self e).calls = [] := by
  unfold handleDownEvent
  cases C.mouseOnly e <;> cases self.condition_ e <;> rfl

theorem handleDownEvent_lastScaleDelta (C : Condition α ε)
    (self : DragRotateAndZoom α ε) (e : MapBrowserEvent α ε) :
    (handleDownEvent C self e).self.lastScaleDelta_ = self.lastScaleDelta_ := by
  unfold handleDownEvent
  cases C.mouseOnly e <;> cases self.condition_ e <;> rfl

theorem handleDownEvent_accepted_unset (C : Condition α ε)
    (self : DragRotateAndZoom α ε) (e : MapBrowserEvent α ε)
    (hmouse : C.mouseOnly e = true) (hcond : self.condition_ e = true) :
    (handleDownEvent C self e).self.lastAngle_ = none ∧
    (handleDownEvent C self e).self.lastMagnitude_ = none := by
  simp [handleDownEvent, hmouse, hcond]

end DragRotateAndZoom

namespace DragRotateAndZoom

variable {α ε : Type} [NatCast α] [Add α] [Sub α] [Mul α] [Div α]

theorem handleDragEvent_mouse_rotationArgs (C : Condition α ε) (M : Math α)
    (self : DragRotateAndZoom α ε) (e : MapBrowserEvent α ε) (a : α)
    (hmouse : C.mouseOnly e = true) (hangle : self.lastAngle_ = some a) :
    rotationArgs (handleDragEvent C M self e).calls = [a - theta M e] := by
  unfold handleDragEvent
  simp only [hmouse, hangle]
  cases self.lastMagnitude_ <;> simp [rotationArgs, theta]

theorem handleDragEvent_first_rotationArgs (C : Condition α ε) (M : Math α)
    (self : DragRotateAndZoom α ε) (e : MapBrowserEvent α ε)
    (hangle : self.lastAngle_ = none) :
    rotationArgs (handleDragEvent C M self e).calls = [] := by
  unfold handleDragEvent
  cases C.mouseOnly e <;> cases self.lastMagnitude_ <;> simp [rotationArgs, hangle]

theorem handleDragEvent_mouse_resolutionArgs (C : Condition α ε) (M : Math α)
    (self : DragRotateAndZoom α ε) (e : MapBrowserEvent α ε) (m : α)
    (hmouse : C.mouseOnly e = true) (hmag : self.lastMagnitude_ = some m) :
    resolutionArgs (handleDragEvent C M self e).calls = [m / magnitude M e] := by
  unfold handleDragEvent
  simp only [hmouse, hmag]
  cases self.lastAngle_ <;> simp [resolutionArgs, magnitude]

theorem handleDragEvent_first_resolutionArgs (C : Condition α ε) (M : Math α)
    (self : DragRotateAndZoom α ε) (e : MapBrowserEvent α ε)
    (hmag : self.lastMagnitude_ = none) :
    resolutionArgs (handleDragEvent C M self e).calls = [] := by
  unfold handleDragEvent
  cases C.mouseOnly e <;> cases self.lastAngle_ <;> simp [resolutionArgs, hmag]

theorem handleDragEvent_first_lastScaleDelta (C : Condition α ε) (M : Math α)
    (self : DragRotateAndZoom α ε) (e : MapBrowserEvent α ε)
    (hmag : self.lastMagnitude_ = none) :
    (handleDragEvent C M self e).self.lastScaleDelta_ = self.lastScaleDelta_ := by
  unfold handleDragEvent
  cases C.mouseOnly e <;> simp [hmag]

end DragRotateAndZoom

namespace DragRotateAndZoom

variable {α ε : Type} [Zero α] [One α] [NatCast α] [Neg α] [Add α] [Sub α] [Mul α] [Div α]
  [LT α] [DecidableRel (fun a b : α => a < b)]

theorem invokeAll_cons_calls (C : Condition α ε) (M : Math α) (self : DragRotateAndZoom α ε)
    (c : HandlerCall α ε) (cs : List (HandlerCall α ε)) :
    (invokeAll C M self (c :: cs)).calls
      = (invoke C M self c).calls ++ (invokeAll C M (invoke C M self c).self cs).calls :=
  rfl

theorem invokeAll_cons_self (C : Condition α ε) (M : Math α) (self : DragRotateAndZoom α ε)
    (c : HandlerCall α ε) (cs : List (HandlerCall α ε)) :
    (invokeAll C M self (c :: cs)).self = (invokeAll C M (invoke C M self c).self cs).self :=
  rfl

end DragRotateAndZoom

namespace DragRotateAndZoom

variable {α ε : Type} [LinearOrderedField α]

/-! ## The factor and the two distances -/

/-- C15: on a mouse drag sample taken with a previous magnitude `m > 0` and a
current magnitude `g > 0`, the factor `m / g` passed to `adjustResolution` is
`> 1` exactly when `g < m`, is `< 1` exactly when `g > m`, and is `1` exactly
when `g = m`. -/
theorem C15_factor_compares_magnitudes (C : Condition α ε) (M : Math α)
    (self : DragRotateAndZoom α ε) (e : MapBrowserEvent α ε) (m : α)
    (hmouse : C.mouseOnly e = true) (hmag : self.lastMagnitude_ = some m)
    (_hm : 0 < m) (hg : 0 < magnitude M e) :
    resolutionArgs (handleDragEvent C M self e).calls = [m / magnitude M e] ∧
    (m / magnitude M e > 1 ↔ magnitude M e < m) ∧
    (m / magnitude M e < 1 ↔ magnitude M e > m) ∧
    (m / magnitude M e = 1 ↔ magnitude M e = m) :=
  ⟨handleDragEvent_mouse_resolutionArgs C M self e m hmouse hmag,
    one_lt_div hg, div_lt_one hg,
    (div_eq_one_iff_eq (ne_of_gt hg)).trans eq_comm⟩

/-- Witness of C15 over the reals: previous magnitude 100, current magnitude
50: the factor is 2, which is `> 1`, and 50 < 100. -/
theorem C15_factor_compares_magnitudes_witness :
    (handleDragEvent (flagCondition ℝ) Math.real (create (flagCondition ℝ) none)
      (mouseAt 200 100)).self.lastMagnitude_ = some 100 ∧
    magnitude Math.real (mouseAt (150 : ℝ) 100) = 50 ∧
    resolutionArgs (handleDragEvent (flagCondition ℝ) Math.real
      (handleDragEvent (flagCondition ℝ) Math.real (create (flagCondition ℝ) none)
        (mouseAt 200 100)).self (mouseAt 150 100)).calls = [2] ∧
    ((100 : ℝ) / magnitude Math.real (mouseAt (150 : ℝ) 100) > 1 ↔
      magnitude Math.real (mouseAt (150 : ℝ) 100) < 100) := by
  have h1 : (handleDragEvent (flagCondition ℝ) Math.real (create (flagCondition ℝ) none)
      (mouseAt 200 100)).self.lastMagnitude_ = some 100 := by
    rw [handleDragEvent_mouse_lastMagnitude _ _ _ _ rfl,
      real_magnitude_mouseAt (by norm_num)]
    norm_num
  have h2 : magnitude Math.real (mouseAt (150 : ℝ) 100) = 50 := by
    rw [real_magnitude_mouseAt (by norm_num)]
    norm_num
  have h := C15_factor_compares_magnitudes (flagCondition ℝ) Math.real _ (mouseAt 150 100)
    100 rfl h1 (by norm_num) (by rw [h2]; norm_num)
  refine ⟨h1, h2, ?_, h.2.1⟩
  rw [h.1, h2]
  norm_num

end DragRotateAndZoom

namespace DragRotateAndZoom

variable {α ε : Type} [Zero α] [One α] [NatCast α] [Neg α] [Add α] [Sub α] [Mul α] [Div α]
  [LT α] [DecidableRel (fun a b : α => a < b)]

/-! ## The arguments of a gesture -/

/-- Mouse drag samples on a controller whose previous angle is `a`: the
arguments of the `adjustRotation` calls are the differences of consecutive
angles, from `a` on. -/
theorem invokeAll_drags_rotationArgs (C : Condition α ε) (M : Math α)
    (es : List (MapBrowserEvent α ε)) (hes : ∀ e ∈ es, C.mouseOnly e = true)
    (self : DragRotateAndZoom α ε) (a : α) (hangle : self.lastAngle_ = some a) :
    rotationArgs (invokeAll C M self (es.map HandlerCall.handleDragEvent)).calls
      = List.zipWith (fun s t => s - t) (a :: es.map (theta M)) (es.map (theta M)) := by
  induction es generalizing self a with
  | nil => rfl
  | cons e es ih =>
    have he : C.mouseOnly e = true := hes e (List.mem_cons_self e es)
    have hrest := ih (fun x hx => hes x (List.mem_cons_of_mem e hx))
      (handleDragEvent C M self e).self (theta M e)
      (handleDragEvent_mouse_lastAngle C M self e he)
    have hhead : rotationArgs (invoke C M self (HandlerCall.handleDragEvent e)).calls
        = [a - theta M e] := handleDragEvent_mouse_rotationArgs C M self e a he hangle
    have hself : (invoke C M self (HandlerCall.handleDragEvent e)).self
        = (handleDragEvent C M self e).self := rfl
    rw [List.map_cons, invokeAll_cons_calls, rotationArgs_append, hhead, hself, hrest]
    rfl

/-- Mouse drag samples on a controller whose previous magnitude is `m`: the
arguments of the `adjustResolution` calls are the quotients of consecutive
magnitudes, from `m` on. -/
theorem invokeAll_drags_resolutionArgs (C : Condition α ε) (M : Math α)
    (es : List (MapBrowserEvent α ε)) (hes : ∀ e ∈ es, C.mouseOnly e = true)
    (self : DragRotateAndZoom α ε) (m : α) (hmag : self.lastMagnitude_ = some m) :
    resolutionArgs (invokeAll C M self (es.map HandlerCall.handleDragEvent)).calls
      = List.zipWith (fun s t => s / t) (m :: es.map (magnitude M))
          (es.map (magnitude M)) := by
  induction es generalizing self m with
  | nil => rfl
  | cons e es ih =>
    have he : C.mouseOnly e = true := hes e (List.mem_cons_self e es)
    have hrest := ih (fun x hx => hes x (List.mem_cons_of_mem e hx))
      (handleDragEvent C M self e).self (magnitude M e)
      (handleDragEvent_mouse_lastMagnitude C M self e he)
    have hhead : resolutionArgs (invoke C M self (HandlerCall.handleDragEvent e)).calls
        = [m / magnitude M e] := handleDragEvent_mouse_resolutionArgs C M self e m he hmag
    have hself : (invoke C M self (HandlerCall.handleDragEvent e)).self
        = (handleDragEvent C M self e).self := rfl
    rw [List.map_cons, invokeAll_cons_calls, resolutionArgs_append, hhead, hself, hrest]
    rfl

/-- The `adjustRotation` arguments of a gesture: an accepted mouse down, then
mouse drag samples. -/
theorem gesture_rotationArgs (C : Condition α ε) (M : Math α)
    (self : DragRotateAndZoom α ε) (d e : MapBrowserEvent α ε)
    (es : List (MapBrowserEvent α ε))
    (hd : C.mouseOnly d = true) (hc : self.condition_ d = true)
    (he : C.mouseOnly e = true) (hes : ∀ x ∈ es, C.mouseOnly x = true) :
    rotationArgs (invokeAll C M self (HandlerCall.handleDownEvent d ::
      (e :: es).map HandlerCall.handleDragEvent)).calls
      = List.zipWith (fun s t => s - t) ((e :: es).map (theta M)) (es.map (theta M)) := by
  have hunset := (handleDownEvent_accepted_unset C self d hd hc).1
  have h1 : rotationArgs (invoke C M self (HandlerCall.handleDownEvent d)).calls = [] :=
    handleDownEvent_rotationArgs C self d
  have h2 : rotationArgs (invoke C M (invoke C M self (HandlerCall.handleDownEvent d)).self
      (HandlerCall.handleDragEvent e)).calls = [] :=
    handleDragEvent_first_rotationArgs C M _ e hunset
  have h3 := invokeAll_drags_rotationArgs C M es hes
    (handleDragEvent C M (handleDownEvent C self d).self e).self (theta M e)
    (handleDragEvent_mouse_lastAngle C M _ e he)
  rw [List.map_cons, invokeAll_cons_calls, invokeAll_cons_calls, rotationArgs_append,
    rotationArgs_append, h1, h2]
  exact h3

/-- The `adjustResolution` arguments of a gesture: an accepted mouse down,
then mouse drag samples. -/
theorem gesture_resolutionArgs (C : Condition α ε) (M : Math α)
    (self : DragRotateAndZoom α ε) (d e : MapBrowserEvent α ε)
    (es : List (MapBrowserEvent α ε))
    (hd : C.mouseOnly d = true) (hc : self.condition_ d = true)
    (he : C.mouseOnly e = true) (hes : ∀ x ∈ es, C.mouseOnly x = true) :
    resolutionArgs (invokeAll C M self (HandlerCall.handleDownEvent d ::
      (e :: es).map HandlerCall.handleDragEvent)).calls
      = List.zipWith (fun s t => s / t) ((e :: es).map (magnitude M))
          (es.map (magnitude M)) := by
  have hunset := (handleDownEvent_accepted_unset C self d hd hc).2
  have h1 : resolutionArgs (invoke C M self (HandlerCall.handleDownEvent d)).calls = [] :=
    handleDownEvent_resolutionArgs C self d
  have h2 : resolutionArgs (invoke C M (invoke C M self (HandlerCall.handleDownEvent d)).self
      (HandlerCall.handleDragEvent e)).calls = [] :=
    handleDragEvent_first_resolutionArgs C M _ e hunset
  have h3 := invokeAll_drags_resolutionArgs C M es hes
    (handleDragEvent C M (handleDownEvent C self d).self e).self (magnitude M e)
    (handleDragEvent_mouse_lastMagnitude C M _ e he)
  rw [List.map_cons, invokeAll_cons_calls, invokeAll_cons_calls, resolutionArgs_append,
    resolutionArgs_append, h1, h2]
  exact h3

/-- C16, amended: in a gesture made of an accepted mouse down followed by
`n ≥ 1` mouse drag samples with angles `t_1, ..., t_n`, exactly `n - 1`
`adjustRotation` calls are issued, and the `i`-th of them has the argument
`t_i - t_(i+1)`, the difference as the number type computes it.  This holds
for every number type, doubles included. -/
theorem C16_rotation_arguments (C : Condition α ε) (M : Math α)
    (self : DragRotateAndZoom α ε) (d e : MapBrowserEvent α ε)
    (es : List (MapBrowserEvent α ε))
    (hd : C.mouseOnly d = true) (hc : self.condition_ d = true)
    (he : C.mouseOnly e = true) (hes : ∀ x ∈ es, C.mouseOnly x = true) :
    (rotationArgs (invokeAll C M self (HandlerCall.handleDownEvent d ::
      (e :: es).map HandlerCall.handleDragEvent)).calls).length = (e :: es).length - 1 ∧
    rotationArgs (invokeAll C M self (HandlerCall.handleDownEvent d ::
      (e :: es).map HandlerCall.handleDragEvent)).calls
      = List.zipWith (fun s t => s - t) ((e :: es).map (theta M)) (es.map (theta M)) := by
  have h := gesture_rotationArgs C M self d e es hd hc he hes
  refine ⟨?_, h⟩
  rw [h]
  simp

/-- C17, amended: in a gesture made of an accepted mouse down followed by
`n ≥ 1` mouse drag samples with magnitudes `g_1, ..., g_n`, exactly `n - 1`
`adjustResolution` calls are issued, and the `i`-th of them has the argument
`g_i / g_(i+1)`, the quotient as the number type computes it.  This holds for
every number type, doubles included. -/
theorem C17_resolution_arguments (C : Condition α ε) (M : Math α)
    (self : DragRotateAndZoom α ε) (d e : MapBrowserEvent α ε)
    (es : List (MapBrowserEvent α ε))
    (hd : C.mouseOnly d = true) (hc : self.condition_ d = true)
    (he : C.mouseOnly e = true) (hes : ∀ x ∈ es, C.mouseOnly x = true) :
    (resolutionArgs (invokeAll C M self (HandlerCall.handleDownEvent d ::
      (e :: es).map HandlerCall.handleDragEvent)).calls).length = (e :: es).length - 1 ∧
    resolutionArgs (invokeAll C M self (HandlerCall.handleDownEvent d ::
      (e :: es).map HandlerCall.handleDragEvent)).calls
      = List.zipWith (fun s t => s / t) ((e :: es).map (magnitude M))
          (es.map (magnitude M)) := by
  have h := gesture_resolutionArgs C M self d e es hd hc he hes
  refine ⟨?_, h⟩
  rw [h]
  simp

end DragRotateAndZoom

namespace DragRotateAndZoom

theorem real_theta_mouseAt_above : theta Math.real (mouseAt (100 : ℝ) 0) = Real.pi / 2 := by
  simp only [theta, mouseAt]
  norm_num
  exact real_atan2_zero_pos (by norm_num)

theorem real_theta_mouseAt_right {px : ℝ} (hx : 100 ≤ px) :
    theta Math.real (mouseAt px 100) = 0 := by
  simp only [theta, mouseAt]
  norm_num
  exact real_atan2_pos_zero (by linarith)

/-- Witness of the amended C16 over the reals: samples above the centre, then
right of it, then further right (angles `π / 2`, `0`, `0`): two
`adjustRotation` calls, with arguments `π / 2 - 0` and `0 - 0`. -/
theorem C16_rotation_arguments_witness :
    (rotationArgs (invokeAll (flagCondition ℝ) Math.real (create (flagCondition ℝ) none)
      [HandlerCall.handleDownEvent (mouseAt 100 100), HandlerCall.handleDragEvent (mouseAt 100 0),
        HandlerCall.handleDragEvent (mouseAt 200 100),
        HandlerCall.handleDragEvent (mouseAt 300 100)]).calls).length = 2 ∧
    rotationArgs (invokeAll (flagCondition ℝ) Math.real (create (flagCondition ℝ) none)
      [HandlerCall.handleDownEvent (mouseAt 100 100), HandlerCall.handleDragEvent (mouseAt 100 0),
        HandlerCall.handleDragEvent (mouseAt 200 100),
        HandlerCall.handleDragEvent (mouseAt 300 100)]).calls
      = [Real.pi / 2 - 0, 0 - 0] := by
  have h := C16_rotation_arguments (flagCondition ℝ) Math.real (create (flagCondition ℝ) none)
    (mouseAt 100 100) (mouseAt 100 0) [mouseAt 200 100, mouseAt 300 100] rfl rfl rfl
    (by simp [flagCondition, mouseAt])
  refine ⟨h.1, h.2.trans ?_⟩
  simp only [List.map_cons, List.map_nil, List.zipWith_cons_cons, List.zipWith_nil_right,
    real_theta_mouseAt_above, real_theta_mouseAt_right (show (100 : ℝ) ≤ 200 by norm_num),
    real_theta_mouseAt_right (show (100 : ℝ) ≤ 300 by norm_num)]

/-- Witness of the amended C17 over the reals: samples of magnitude 100, 50
and 200: two `adjustResolution` calls, with arguments `100 / 50` and
`50 / 200`. -/
theorem C17_resolution_arguments_witness :
    (resolutionArgs (invokeAll (flagCondition ℝ) Math.real (create (flagCondition ℝ) none)
      [HandlerCall.handleDownEvent (mouseAt 100 100),
        HandlerCall.handleDragEvent (mouseAt 200 100),
        HandlerCall.handleDragEvent (mouseAt 150 100),
        HandlerCall.handleDragEvent (mouseAt 300 100)]).calls).length = 2 ∧
    resolutionArgs (invokeAll (flagCondition ℝ) Math.real (create (flagCondition ℝ) none)
      [HandlerCall.handleDownEvent (mouseAt 100 100),
        HandlerCall.handleDragEvent (mouseAt 200 100),
        HandlerCall.handleDragEvent (mouseAt 150 100),
        HandlerCall.handleDragEvent (mouseAt 300 100)]).calls
      = [100 / 50, 50 / 200] := by
  have m200 : magnitude Math.real (mouseAt (200 : ℝ) 100) = 100 := by
    rw [real_magnitude_mouseAt (by norm_num)]; norm_num
  have m150 : magnitude Math.real (mouseAt (150 : ℝ) 100) = 50 := by
    rw [real_magnitude_mouseAt (by norm_num)]; norm_num
  have m300 : magnitude Math.real (mouseAt (300 : ℝ) 100) = 200 := by
    rw [real_magnitude_mouseAt (by norm_num)]; norm_num
  have h := C17_resolution_arguments (flagCondition ℝ) Math.real
    (create (flagCondition ℝ) none)
    (mouseAt 100 100) (mouseAt 200 100) [mouseAt 150 100, mouseAt 300 100] rfl rfl rfl
    (by simp [flagCondition, mouseAt])
  refine ⟨h.1, h.2.trans ?_⟩
  simp only [List.map_cons, List.map_nil, List.zipWith_cons_cons, List.zipWith_nil_right,
    m200, m150, m300]

end DragRotateAndZoom

namespace DragRotateAndZoom

variable {α ε : Type} [LinearOrderedField α]

/-! ## Positive factors -/

theorem real_magnitude_nonneg (e : MapBrowserEvent ℝ ε) : 0 ≤ magnitude Math.real e :=
  Real.sqrt_nonneg _

theorem real_magnitude_eq_zero_iff (e : MapBrowserEvent ℝ ε) :
    magnitude Math.real e = 0 ↔ e.pixel = (e.size.1 / 2, e.size.2 / 2) := by
  have hsq : 0 ≤ (e.pixel.1 - e.size.1 / 2) * (e.pixel.1 - e.size.1 / 2)
      + (e.size.2 / 2 - e.pixel.2) * (e.size.2 / 2 - e.pixel.2) :=
    add_nonneg (mul_self_nonneg _) (mul_self_nonneg _)
  show Real.sqrt ((e.pixel.1 - e.size.1 / 2) * (e.pixel.1 - e.size.1 / 2)
      + (e.size.2 / 2 - e.pixel.2) * (e.size.2 / 2 - e.pixel.2)) = 0 ↔ _
  rw [Real.sqrt_eq_zero hsq, mul_self_add_mul_self_eq_zero, sub_eq_zero, sub_eq_zero,
    Prod.ext_iff]
  exact ⟨fun h => ⟨h.1, h.2.symm⟩, fun h => ⟨h.1, h.2.symm⟩⟩

/-- Mouse drag samples of positive magnitude on a controller whose previous
magnitude is positive: every factor passed to `adjustResolution` is positive,
and `lastScaleDelta_` is positive afterwards if it was before or if there was
a sample. -/
theorem invokeAll_drags_positive (C : Condition α ε) (M : Math α)
    (es : List (MapBrowserEvent α ε)) (hes : ∀ e ∈ es, C.mouseOnly e = true)
    (hpos : ∀ e ∈ es, 0 < magnitude M e)
    (self : DragRotateAndZoom α ε) (m : α) (hmag : self.lastMagnitude_ = some m)
    (hm : 0 < m) :
    (∀ r ∈ resolutionArgs (invokeAll C M self (es.map HandlerCall.handleDragEvent)).calls,
      0 < r) ∧
    (0 < self.lastScaleDelta_ →
      0 < (invokeAll C M self (es.map HandlerCall.handleDragEvent)).self.lastScaleDelta_) ∧
    (es ≠ [] →
      0 < (invokeAll C M self (es.map HandlerCall.handleDragEvent)).self.lastScaleDelta_) := by
  induction es generalizing self m with
  | nil => exact ⟨fun r hr => by simp [invokeAll, resolutionArgs] at hr, id, fun h => (h rfl).elim⟩
  | cons e es ih =>
    have he : C.mouseOnly e = true := hes e (List.mem_cons_self e es)
    have hg : 0 < magnitude M e := hpos e (List.mem_cons_self e es)
    obtain ⟨hall, hkeep, _⟩ := ih (fun x hx => hes x (List.mem_cons_of_mem e hx))
      (fun x hx => hpos x (List.mem_cons_of_mem e hx))
      (handleDragEvent C M self e).self (magnitude M e)
      (handleDragEvent_mouse_lastMagnitude C M self e he) hg
    have hhead : resolutionArgs (invoke C M self (HandlerCall.handleDragEvent e)).calls
        = [m / magnitude M e] := handleDragEvent_mouse_resolutionArgs C M self e m he hmag
    have hself : (invoke C M self (HandlerCall.handleDragEvent e)).self
        = (handleDragEvent C M self e).self := rfl
    have hscale : 0 < (handleDragEvent C M self e).self.lastScaleDelta_ := by
      rw [handleDragEvent_mouse_lastScaleDelta C M self e m he hmag]
      exact div_pos hm hg
    rw [List.map_cons, invokeAll_cons_calls, invokeAll_cons_self, resolutionArgs_append,
      hhead, hself]
    refine ⟨?_, fun _ => hkeep hscale, fun _ => hkeep hscale⟩
    intro r hr
    rcases List.mem_append.mp hr with h | h
    · rw [List.mem_singleton.mp h]
      exact div_pos hm hg
    · exact hall r h

end DragRotateAndZoom

namespace DragRotateAndZoom

variable {ε : Type}

/-- C18: over the reals, the magnitude `sqrt (dx * dx + dy * dy)` that
`handleDragEvent` computes is non-negative, and is zero exactly when the pixel
is the viewport centre `(w / 2, h / 2)`.  So in a gesture made of an accepted
mouse down followed by mouse drag samples none of which lies at the centre,
every magnitude (every divisor) is non-zero, every factor passed to
`adjustResolution` is strictly positive, and so is `lastScaleDelta_` once a
factor has been stored in it (from the second sample on). -/
theorem C18_magnitude_and_factors_positive (C : Condition ℝ ε)
    (self : DragRotateAndZoom ℝ ε) (d e : MapBrowserEvent ℝ ε)
    (es : List (MapBrowserEvent ℝ ε))
    (hd : C.mouseOnly d = true) (hc : self.condition_ d = true)
    (he : C.mouseOnly e = true) (hes : ∀ x ∈ es, C.mouseOnly x = true)
    (hcentre : ∀ x ∈ e :: es, x.pixel ≠ (x.size.1 / 2, x.size.2 / 2)) :
    (∀ x : MapBrowserEvent ℝ ε, 0 ≤ magnitude Math.real x ∧
      (magnitude Math.real x = 0 ↔ x.pixel = (x.size.1 / 2, x.size.2 / 2))) ∧
    (∀ x ∈ e :: es, magnitude Math.real x ≠ 0) ∧
    (∀ r ∈ resolutionArgs (invokeAll C Math.real self (HandlerCall.handleDownEvent d ::
      (e :: es).map HandlerCall.handleDragEvent)).calls, 0 < r) ∧
    (es ≠ [] → 0 < (invokeAll C Math.real self (HandlerCall.handleDownEvent d ::
      (e :: es).map HandlerCall.handleDragEvent)).self.lastScaleDelta_) := by
  have hnz : ∀ x ∈ e :: es, magnitude Math.real x ≠ 0 :=
    fun x hx h => hcentre x hx ((real_magnitude_eq_zero_iff x).mp h)
  have hpos : ∀ x ∈ e :: es, 0 < magnitude Math.real x :=
    fun x hx => lt_of_le_of_ne (real_magnitude_nonneg x) (Ne.symm (hnz x hx))
  have hunset := (handleDownEvent_accepted_unset C self d hd hc).2
  obtain ⟨hall, _, hlast⟩ := invokeAll_drags_positive C Math.real es hes
    (fun x hx => hpos x (List.mem_cons_of_mem e hx))
    (handleDragEvent C Math.real (handleDownEvent C self d).self e).self
    (magnitude Math.real e)
    (handleDragEvent_mouse_lastMagnitude C Math.real _ e he)
    (hpos e (List.mem_cons_self e es))
  have hcalls : resolutionArgs (invokeAll C Math.real self (HandlerCall.handleDownEvent d ::
      (e :: es).map HandlerCall.handleDragEvent)).calls
      = resolutionArgs (invokeAll C Math.real
          (handleDragEvent C Math.real (handleDownEvent C self d).self e).self
          (es.map HandlerCall.handleDragEvent)).calls := by
    rw [List.map_cons, invokeAll_cons_calls, invokeAll_cons_calls, resolutionArgs_append,
      resolutionArgs_append]
    have h1 : resolutionArgs
        (invoke C Math.real self (HandlerCall.handleDownEvent d)).calls = [] :=
      handleDownEvent_resolutionArgs C self d
    have h2 : resolutionArgs (invoke C Math.real
        (invoke C Math.real self (HandlerCall.handleDownEvent d)).self
        (HandlerCall.handleDragEvent e)).calls = [] :=
      handleDragEvent_first_resolutionArgs C Math.real _ e hunset
    rw [h1, h2]
    rfl
  refine ⟨fun x => ⟨real_magnitude_nonneg x, real_magnitude_eq_zero_iff x⟩, hnz, ?_, hlast⟩
  rw [hcalls]
  exact hall

/-- Witness of C18 over the reals: samples at distance 100, 50 and 200 to the
right of the centre: the factors 2 and 1/4 are positive, and
`lastScaleDelta_` is positive afterwards. -/
theorem C18_magnitude_and_factors_positive_witness :
    (∀ x ∈ [mouseAt (200 : ℝ) 100, mouseAt 150 100, mouseAt 300 100],
      x.pixel ≠ (x.size.1 / 2, x.size.2 / 2)) ∧
    (∀ r ∈ resolutionArgs (invokeAll (flagCondition ℝ) Math.real
      (create (flagCondition ℝ) none)
      [HandlerCall.handleDownEvent (mouseAt 100 100),
        HandlerCall.handleDragEvent (mouseAt 200 100),
        HandlerCall.handleDragEvent (mouseAt 150 100),
        HandlerCall.handleDragEvent (mouseAt 300 100)]).calls, 0 < r) ∧
    0 < (invokeAll (flagCondition ℝ) Math.real (create (flagCondition ℝ) none)
      [HandlerCall.handleDownEvent (mouseAt 100 100),
        HandlerCall.handleDragEvent (mouseAt 200 100),
        HandlerCall.handleDragEvent (mouseAt 150 100),
        HandlerCall.handleDragEvent (mouseAt 300 100)]).self.lastScaleDelta_ := by
  have hcentre : ∀ x ∈ [mouseAt (200 : ℝ) 100, mouseAt 150 100, mouseAt 300 100],
      x.pixel ≠ (x.size.1 / 2, x.size.2 / 2) := by
    intro x hx
    simp only [List.mem_cons, List.mem_singleton, List.not_mem_nil, or_false] at hx
    rcases hx with rfl | rfl | rfl <;> simp only [mouseAt, ne_eq, Prod.mk.injEq] <;> norm_num
  have h := C18_magnitude_and_factors_positive (flagCondition ℝ)
    (create (flagCondition ℝ) none)
    (mouseAt 100 100) (mouseAt 200 100) [mouseAt 150 100, mouseAt 300 100] rfl rfl rfl
    (by simp [flagCondition, mouseAt]) hcentre
  exact ⟨hcentre, h.2.2.1, h.2.2.2 (List.cons_ne_nil _ _)⟩

end DragRotateAndZoom

namespace DragRotateAndZoom

/-! ## Doubles -/

section
variable {K : Type} [LinearOrderedField K] [FloorRing K]

theorem roundHalfEven_eq (y : K) (n : ℤ) (h : |y - n| < 1 / 2) : roundHalfEven y = n := by
  rw [abs_lt] at h
  obtain ⟨h1, h2⟩ := h
  unfold roundHalfEven
  by_cases hle : (n : K) ≤ y
  · have hf : ⌊y⌋ = n := Int.floor_eq_iff.mpr ⟨hle, by linarith⟩
    rw [hf, if_pos h2]
  · have hlt : y < n := lt_of_not_le hle
    have hf : ⌊y⌋ = n - 1 :=
      Int.floor_eq_iff.mpr ⟨by push_cast; linarith, by push_cast; linarith⟩
    rw [hf]
    have h3 : ¬ (y - ((n - 1 : ℤ) : K) < 1 / 2) := by push_cast; linarith
    have h4 : 1 / 2 < y - ((n - 1 : ℤ) : K) := by push_cast; linarith
    rw [if_neg h3, if_pos h4]
    ring

theorem roundHalfEven_tie (y : K) (n : ℤ) (h : y = n + 1 / 2) (heven : n % 2 = 0) :
    roundHalfEven y = n := by
  have hf : ⌊y⌋ = n := Int.floor_eq_iff.mpr ⟨by rw [h]; linarith, by rw [h]; linarith⟩
  unfold roundHalfEven
  rw [hf]
  have h3 : ¬ (y - (n : K) < 1 / 2) := by rw [h]; simp
  have h4 : ¬ (1 / 2 < y - (n : K)) := by rw [h]; simp
  rw [if_neg h3, if_neg h4, if_pos heven]

theorem int_log_two_eq (x : K) (e : ℤ) (hlo : (2 : K) ^ e ≤ |x|) (hhi : |x| < (2 : K) ^ (e + 1)) :
    Int.log 2 |x| = e := by
  have hpos : 0 < |x| := lt_of_lt_of_le (zpow_pos (by norm_num) e) hlo
  have h1 : e ≤ Int.log 2 |x| :=
    (Int.zpow_le_iff_le_log (by norm_num) hpos).mp (by exact_mod_cast hlo)
  have h2 : Int.log 2 |x| < e + 1 :=
    (Int.lt_zpow_iff_log_lt (by norm_num) hpos).mp (by exact_mod_cast hhi)
  omega

theorem binary64_eq (x : K) (e n : ℤ)
    (hlo : (2 : K) ^ e ≤ |x|) (hhi : |x| < (2 : K) ^ (e + 1))
    (hn : |x / 2 ^ (e - 52) - n| < 1 / 2) : binary64 x = n * 2 ^ (e - 52) := by
  have hpos : 0 < |x| := lt_of_lt_of_le (zpow_pos (by norm_num) e) hlo
  have hx : x ≠ 0 := abs_pos.mp hpos
  unfold binary64
  rw [if_neg hx, int_log_two_eq x e hlo hhi, roundHalfEven_eq _ n hn]

theorem binary64_eq_tie (x : K) (e n : ℤ)
    (hlo : (2 : K) ^ e ≤ |x|) (hhi : |x| < (2 : K) ^ (e + 1))
    (hn : x / 2 ^ (e - 52) = n + 1 / 2) (heven : n % 2 = 0) :
    binary64 x = n * 2 ^ (e - 52) := by
  have hpos : 0 < |x| := lt_of_lt_of_le (zpow_pos (by norm_num) e) hlo
  have hx : x ≠ 0 := abs_pos.mp hpos
  unfold binary64
  rw [if_neg hx, int_log_two_eq x e hlo hhi, roundHalfEven_tie _ n hn heven]

theorem binary64_zero : binary64 (0 : K) = 0 := by
  simp [binary64]

/-- A natural number below `2 ^ 53` is a double. -/
theorem binary64_natCast (n : ℕ) (h : n < 2 ^ 53) : binary64 (n : K) = n := by
  rcases Nat.eq_zero_or_pos n with rfl | hn
  · simp [binary64]
  have hpos : (0 : K) < n := by exact_mod_cast hn
  have habs : |(n : K)| = n := abs_of_pos hpos
  have hx : (n : K) ≠ 0 := ne_of_gt hpos
  have h0 : 0 ≤ Int.log 2 (n : K) := by
    apply (Int.zpow_le_iff_le_log (by norm_num) hpos).mp
    simp only [zpow_zero]
    exact_mod_cast hn
  have h52 : Int.log 2 (n : K) < 53 := by
    apply (Int.lt_zpow_iff_log_lt (by norm_num) hpos).mp
    calc (n : K) < ((2 ^ 53 : ℕ) : K) := by exact_mod_cast h
      _ = ((2 : ℕ) : K) ^ (53 : ℤ) := by norm_num
  obtain ⟨k, hk⟩ : ∃ k : ℕ, Int.log 2 (n : K) - 52 = -(k : ℤ) :=
    ⟨(52 - Int.log 2 (n : K)).toNat, by omega⟩
  unfold binary64
  rw [if_neg hx, habs, hk]
  have hy : (n : K) / 2 ^ (-(k : ℤ)) = (((n * 2 ^ k : ℕ) : ℤ) : K) := by
    rw [zpow_neg, zpow_natCast, div_inv_eq_mul]
    push_cast
    ring
  rw [hy, roundHalfEven_eq _ ((n * 2 ^ k : ℕ) : ℤ) (by simp)]
  rw [zpow_neg, zpow_natCast]
  push_cast
  field_simp

theorem binary64_ofNat (n : ℕ) [n.AtLeastTwo] (h : n < 2 ^ 53) :
    binary64 (OfNat.ofNat n : K) = OfNat.ofNat n := by
  have := binary64_natCast (K := K) n h
  simpa using this

theorem binary64_one : binary64 (1 : K) = 1 := by
  have := binary64_natCast (K := K) 1 (by norm_num)
  simpa using this

end


theorem Double.ext_val {a b : Double} (h : a.val = b.val) : a = b := by
  cases a
  cases b
  simp only at h
  rw [h]

theorem Double.val_add (a b : Double) : (a + b).val = binary64 (a.val + b.val) := rfl

theorem Double.val_sub (a b : Double) : (a - b).val = binary64 (a.val - b.val) := rfl

theorem Double.val_mul (a b : Double) : (a * b).val = binary64 (a.val * b.val) := rfl

theorem Double.val_div (a b : Double) : (a / b).val = binary64 (a.val / b.val) := rfl

theorem Double.val_zero : (0 : Double).val = 0 := rfl

theorem Double.val_one : (1 : Double).val = 1 := rfl

theorem Double.val_ofNat (n : ℕ) [n.AtLeastTwo] (h : n < 2 ^ 53) :
    (OfNat.ofNat n : Double).val = OfNat.ofNat n := by
  show binary64 (((OfNat.ofNat n : ℕ)) : ℚ) = OfNat.ofNat n
  rw [Nat.cast_ofNat, binary64_ofNat n h]

theorem Double.sqrt_val (x : Double) :
    (Math.double.sqrt x).val = binary64 (Real.sqrt (x.val : ℝ)) := rfl

theorem double_magnitude_one :
    magnitude Math.double (mouseAt (101 : Double) 100) = 1 := by
  apply Double.ext_val
  have b100 : binary64 (100 : ℚ) = 100 := binary64_ofNat 100 (by norm_num)
  have b1 : binary64 (1 : ℚ) = 1 := binary64_one
  have b0 : binary64 (0 : ℚ) = 0 := binary64_zero
  have r1 : binary64 (1 : ℝ) = 1 := binary64_one
  simp only [magnitude, mouseAt, Double.sqrt_val, Double.val_add, Double.val_sub,
    Double.val_mul, Double.val_div, Double.val_one,
    Double.val_ofNat 200 (by norm_num), Double.val_ofNat 2 (by norm_num),
    Double.val_ofNat 101 (by norm_num), Double.val_ofNat 100 (by norm_num)]
  norm_num [b100, b1, b0, r1]


theorem double_magnitude_fortyNine :
    magnitude Math.double (mouseAt (149 : Double) 100) = 49 := by
  apply Double.ext_val
  have b100 : binary64 (100 : ℚ) = 100 := binary64_ofNat 100 (by norm_num)
  have b49 : binary64 (49 : ℚ) = 49 := binary64_ofNat 49 (by norm_num)
  have b2401 : binary64 (2401 : ℚ) = 2401 := binary64_ofNat 2401 (by norm_num)
  have b0 : binary64 (0 : ℚ) = 0 := binary64_zero
  have hsqrt : Real.sqrt (2401 : ℝ) = 49 := by
    rw [show (2401 : ℝ) = 49 * 49 by norm_num, Real.sqrt_mul_self (by norm_num)]
  have r49 : binary64 (49 : ℝ) = 49 := binary64_ofNat 49 (by norm_num)
  simp only [magnitude, mouseAt, Double.sqrt_val, Double.val_add, Double.val_sub,
    Double.val_mul, Double.val_div,
    Double.val_ofNat 200 (by norm_num), Double.val_ofNat 2 (by norm_num),
    Double.val_ofNat 149 (by norm_num), Double.val_ofNat 100 (by norm_num),
    Double.val_ofNat 49 (by norm_num)]
  norm_num [b100, b49, b2401, b0, hsqrt, r49]

theorem double_one_div_fortyNine :
    (1 : Double) / 49 = ⟨5882252574524729 / 2 ^ 58⟩ := by
  apply Double.ext_val
  rw [Double.val_div, Double.val_one, Double.val_ofNat 49 (by norm_num)]
  have h := binary64_eq (1 / 49 : ℚ) (-6) 5882252574524729
    (by norm_num [abs_of_pos]) (by norm_num [abs_of_pos]) (by norm_num [abs_lt])
  rw [h]
  norm_num

theorem double_fortyNine_div_one : (49 : Double) / 1 = 49 := by
  apply Double.ext_val
  rw [Double.val_div, Double.val_one, Double.val_ofNat 49 (by norm_num), div_one,
    binary64_ofNat 49 (by norm_num)]

theorem double_one_div_one : (1 : Double) / 1 = 1 := by
  apply Double.ext_val
  rw [Double.val_div, Double.val_one, div_one, binary64_one]

theorem double_fortyNine_mul_one : (49 : Double) * 1 = 49 := by
  apply Double.ext_val
  rw [Double.val_mul, Double.val_one, Double.val_ofNat 49 (by norm_num), mul_one,
    binary64_ofNat 49 (by norm_num)]

theorem double_product :
    (⟨5882252574524729 / 2 ^ 58⟩ : Double) * 49 = ⟨9007199254740991 / 2 ^ 53⟩ := by
  apply Double.ext_val
  rw [Double.val_mul, Double.val_ofNat 49 (by norm_num)]
  have h := binary64_eq ((5882252574524729 / 2 ^ 58 : ℚ) * 49) (-1) 9007199254740991
    (by norm_num [abs_of_pos]) (by norm_num [abs_of_pos]) (by norm_num [abs_lt])
  rw [h]
  norm_num

/-- Counterexample to C17 as stated, on doubles.  On a 200 by 200 viewport an
accepted mouse down is followed by samples at pixels `(101, 100)`,
`(149, 100)` and `(101, 100)`, of magnitudes 1, 49 and 1.  The two
`adjustResolution` arguments are the doubles `1 / 49 = 0.02040816326530612`
and `49 / 1 = 49`; they multiply to `0.9999999999999999`, as doubles, and to
less than 1 exactly, while `g_1 / g_3` is 1. -/
theorem C17_doubles_do_not_telescope :
    resolutionArgs (invokeAll (flagCondition Double) Math.double
      (create (flagCondition Double) none)
      [HandlerCall.handleDownEvent (mouseAt 100 100),
        HandlerCall.handleDragEvent (mouseAt 101 100),
        HandlerCall.handleDragEvent (mouseAt 149 100),
        HandlerCall.handleDragEvent (mouseAt 101 100)]).calls
      = [⟨5882252574524729 / 2 ^ 58⟩, 49] ∧
    (resolutionArgs (invokeAll (flagCondition Double) Math.double
      (create (flagCondition Double) none)
      [HandlerCall.handleDownEvent (mouseAt 100 100),
        HandlerCall.handleDragEvent (mouseAt 101 100),
        HandlerCall.handleDragEvent (mouseAt 149 100),
        HandlerCall.handleDragEvent (mouseAt 101 100)]).calls).prod
      = ⟨9007199254740991 / 2 ^ 53⟩ ∧
    magnitude Math.double (mouseAt (101 : Double) 100)
      / magnitude Math.double (mouseAt (101 : Double) 100) = 1 ∧
    (resolutionArgs (invokeAll (flagCondition Double) Math.double
      (create (flagCondition Double) none)
      [HandlerCall.handleDownEvent (mouseAt 100 100),
        HandlerCall.handleDragEvent (mouseAt 101 100),
        HandlerCall.handleDragEvent (mouseAt 149 100),
        HandlerCall.handleDragEvent (mouseAt 101 100)]).calls).prod
      ≠ magnitude Math.double (mouseAt (101 : Double) 100)
        / magnitude Math.double (mouseAt (101 : Double) 100) ∧
    ((resolutionArgs (invokeAll (flagCondition Double) Math.double
      (create (flagCondition Double) none)
      [HandlerCall.handleDownEvent (mouseAt 100 100),
        HandlerCall.handleDragEvent (mouseAt 101 100),
        HandlerCall.handleDragEvent (mouseAt 149 100),
        HandlerCall.handleDragEvent (mouseAt 101 100)]).calls).map Double.val).prod
      ≠ (magnitude Math.double (mouseAt (101 : Double) 100)
        / magnitude Math.double (mouseAt (101 : Double) 100)).val := by
  have hargs : resolutionArgs (invokeAll (flagCondition Double) Math.double
      (create (flagCondition Double) none)
      [HandlerCall.handleDownEvent (mouseAt 100 100),
        HandlerCall.handleDragEvent (mouseAt 101 100),
        HandlerCall.handleDragEvent (mouseAt 149 100),
        HandlerCall.handleDragEvent (mouseAt 101 100)]).calls
      = [⟨5882252574524729 / 2 ^ 58⟩, 49] := by
    have h := gesture_resolutionArgs (flagCondition Double) Math.double
      (create (flagCondition Double) none) (mouseAt 100 100) (mouseAt 101 100)
      [mouseAt 149 100, mouseAt 101 100] rfl rfl rfl (by simp [flagCondition, mouseAt])
    refine h.trans ?_
    simp only [List.map_cons, List.map_nil, List.zipWith_cons_cons, List.zipWith_nil_right,
      double_magnitude_one, double_magnitude_fortyNine, double_one_div_fortyNine,
      double_fortyNine_div_one]
  have hprod : ([⟨5882252574524729 / 2 ^ 58⟩, 49] : List Double).prod
      = ⟨9007199254740991 / 2 ^ 53⟩ := by
    show (⟨5882252574524729 / 2 ^ 58⟩ : Double) * (49 * 1) = _
    rw [double_fortyNine_mul_one, double_product]
  have hquot : magnitude Math.double (mouseAt (101 : Double) 100)
      / magnitude Math.double (mouseAt (101 : Double) 100) = 1 := by
    rw [double_magnitude_one, double_one_div_one]
  refine ⟨hargs, by rw [hargs, hprod], hquot, ?_, ?_⟩
  · rw [hargs, hprod, hquot]
    intro h
    have hv := congrArg Double.val h
    rw [Double.val_one] at hv
    norm_num at hv
  · rw [hargs, hquot, Double.val_one]
    simp only [List.map_cons, List.map_nil, List.prod_cons, List.prod_nil,
      Double.val_ofNat 49 (by norm_num)]
    norm_num


/-! ### The two angles of the counterexample

`atan2 6 7` and `atan2 1 21` are located between two rationals half a unit in
the last place on either side of a double, by the Taylor polynomials of sine
and cosine of degree 21 and the bound on the remainder of the exponential
series. -/

theorem expI_partial (θ : ℝ) (N : ℕ) :
    (∑ m ∈ Finset.range (2 * N), ((θ : ℂ) * Complex.I) ^ m / (m.factorial : ℂ))
      = ((∑ k ∈ Finset.range N, (-1) ^ k * θ ^ (2 * k) / ((2 * k).factorial : ℝ) : ℝ) : ℂ)
        + ((∑ k ∈ Finset.range N,
            (-1) ^ k * θ ^ (2 * k + 1) / ((2 * k + 1).factorial : ℝ) : ℝ) : ℂ)
          * Complex.I := by
  induction N with
  | zero => simp
  | succ N ih =>
    rw [show 2 * (N + 1) = 2 * N + 1 + 1 by ring, Finset.sum_range_succ,
      Finset.sum_range_succ, ih, Finset.sum_range_succ, Finset.sum_range_succ]
    have h1 : ((θ : ℂ) * Complex.I) ^ (2 * N) = ((-1) ^ N * θ ^ (2 * N) : ℝ) := by
      rw [mul_pow, pow_mul Complex.I, Complex.I_sq]
      push_cast
      ring
    have h2 : ((θ : ℂ) * Complex.I) ^ (2 * N + 1)
        = ((-1) ^ N * θ ^ (2 * N + 1) : ℝ) * Complex.I := by
      rw [pow_succ, h1]
      push_cast
      ring
    rw [h1, h2]
    push_cast
    ring

theorem complex_sub_parts (a b c d : ℝ) :
    ((a : ℂ) + (b : ℂ) * Complex.I - ((c : ℂ) + (d : ℂ) * Complex.I)) = ⟨a - c, b - d⟩ := by
  apply Complex.ext <;> simp

/-- Cosine and sine are within the remainder of the exponential series of
their Taylor polynomials. -/
theorem cos_sin_taylor (θ : ℝ) (hθ : |θ| ≤ 1) (N : ℕ) (hN : 0 < N) :
    |Real.cos θ - ∑ k ∈ Finset.range N, (-1) ^ k * θ ^ (2 * k) / ((2 * k).factorial : ℝ)|
      ≤ |θ| ^ (2 * N) * (((2 * N).succ : ℝ) * (((2 * N).factorial : ℝ) * (2 * N : ℕ))⁻¹) ∧
    |Real.sin θ
        - ∑ k ∈ Finset.range N, (-1) ^ k * θ ^ (2 * k + 1) / ((2 * k + 1).factorial : ℝ)|
      ≤ |θ| ^ (2 * N) * (((2 * N).succ : ℝ) * (((2 * N).factorial : ℝ) * (2 * N : ℕ))⁻¹) := by
  have habs : Complex.abs ((θ : ℂ) * Complex.I) = |θ| := by simp
  have hb := @Complex.exp_bound ((θ : ℂ) * Complex.I) (by rw [habs]; exact hθ)
    (2 * N) (by omega)
  rw [habs, expI_partial, Complex.exp_mul_I, ← Complex.ofReal_cos, ← Complex.ofReal_sin,
    complex_sub_parts] at hb
  exact ⟨le_trans (Complex.abs_re_le_abs (Complex.mk _ _)) hb,
    le_trans (Complex.abs_im_le_abs (Complex.mk _ _)) hb⟩

theorem arg_gt_of_tan_lt (z : ℂ) (hre : 0 < z.re) (lo : ℝ) (h1 : lo ≤ 1)
    (htan : Real.sin lo * z.re < z.im * Real.cos lo) (hcos : 0 < Real.cos lo) :
    lo < Complex.arg z := by
  by_contra hcon
  push_neg at hcon
  have harg : |Complex.arg z| < Real.pi / 2 :=
    Complex.abs_arg_lt_pi_div_two_iff.mpr (Or.inl hre)
  rw [abs_lt] at harg
  have hlo : lo < Real.pi / 2 := by linarith [Real.pi_gt_three]
  have hmono : Real.tan (Complex.arg z) ≤ Real.tan lo := by
    rcases eq_or_lt_of_le hcon with h | h
    · rw [h]
    · exact le_of_lt (Real.tan_lt_tan_of_lt_of_lt_pi_div_two harg.1 hlo h)
  rw [Complex.tan_arg, Real.tan_eq_sin_div_cos, div_le_div_iff₀ hre hcos] at hmono
  linarith

theorem arg_lt_of_lt_tan (z : ℂ) (hre : 0 < z.re) (hi : ℝ) (h0 : 0 ≤ hi)
    (htan : z.im * Real.cos hi < Real.sin hi * z.re) (hcos : 0 < Real.cos hi) :
    Complex.arg z < hi := by
  by_contra hcon
  push_neg at hcon
  have harg : |Complex.arg z| < Real.pi / 2 :=
    Complex.abs_arg_lt_pi_div_two_iff.mpr (Or.inl hre)
  rw [abs_lt] at harg
  have hhi : -(Real.pi / 2) < hi := by linarith [Real.pi_gt_three]
  have hmono : Real.tan hi ≤ Real.tan (Complex.arg z) := by
    rcases eq_or_lt_of_le hcon with h | h
    · rw [h]
    · exact le_of_lt (Real.tan_lt_tan_of_lt_of_lt_pi_div_two hhi harg.2 h)
  rw [Complex.tan_arg, Real.tan_eq_sin_div_cos, div_le_div_iff₀ hcos hre] at hmono
  linarith

set_option maxRecDepth 100000 in
theorem arg_seven_six_gt : (12765476060396477 / 2 ^ 54 : ℝ) < Complex.arg ⟨7, 6⟩ := by
  have hb := cos_sin_taylor (12765476060396477 / 2 ^ 54 : ℝ)
    (by rw [abs_of_pos (by norm_num)]; norm_num) 11 (by norm_num)
  rw [abs_of_pos (show (0 : ℝ) < 12765476060396477 / 2 ^ 54 by norm_num)] at hb
  obtain ⟨hc, hs⟩ := hb
  rw [abs_le] at hc hs
  have hc1 := hc.1
  have hs2 := hs.2
  simp only [Finset.sum_range_succ, Finset.sum_range_zero, Nat.factorial,
    Nat.succ_eq_add_one] at hc1 hs2
  norm_num at hc1 hs2
  apply arg_gt_of_tan_lt _ (by norm_num) _ (by norm_num)
  · show Real.sin _ * 7 < 6 * Real.cos _
    linarith
  · linarith

set_option maxRecDepth 100000 in
theorem arg_seven_six_lt : Complex.arg ⟨7, 6⟩ < (12765476060396479 / 2 ^ 54 : ℝ) := by
  have hb := cos_sin_taylor (12765476060396479 / 2 ^ 54 : ℝ)
    (by rw [abs_of_pos (by norm_num)]; norm_num) 11 (by norm_num)
  rw [abs_of_pos (show (0 : ℝ) < 12765476060396479 / 2 ^ 54 by norm_num)] at hb
  obtain ⟨hc, hs⟩ := hb
  rw [abs_le] at hc hs
  have hc1 := hc.1
  have hc2 := hc.2
  have hs1 := hs.1
  simp only [Finset.sum_range_succ, Finset.sum_range_zero, Nat.factorial,
    Nat.succ_eq_add_one] at hc1 hc2 hs1
  norm_num at hc1 hc2 hs1
  apply arg_lt_of_lt_tan _ (by norm_num) _ (by norm_num)
  · show 6 * Real.cos _ < Real.sin _ * 7
    linarith
  · linarith

set_option maxRecDepth 100000 in
theorem arg_twentyOne_one_gt : (13714895755990671 / 2 ^ 58 : ℝ) < Complex.arg ⟨21, 1⟩ := by
  have hb := cos_sin_taylor (13714895755990671 / 2 ^ 58 : ℝ)
    (by rw [abs_of_pos (by norm_num)]; norm_num) 8 (by norm_num)
  rw [abs_of_pos (show (0 : ℝ) < 13714895755990671 / 2 ^ 58 by norm_num)] at hb
  obtain ⟨hc, hs⟩ := hb
  rw [abs_le] at hc hs
  have hc1 := hc.1
  have hs2 := hs.2
  simp only [Finset.sum_range_succ, Finset.sum_range_zero, Nat.factorial,
    Nat.succ_eq_add_one] at hc1 hs2
  norm_num at hc1 hs2
  apply arg_gt_of_tan_lt _ (by norm_num) _ (by norm_num)
  · show Real.sin _ * 21 < 1 * Real.cos _
    linarith
  · linarith

set_option maxRecDepth 100000 in
theorem arg_twentyOne_one_lt : Complex.arg ⟨21, 1⟩ < (13714895755990673 / 2 ^ 58 : ℝ) := by
  have hb := cos_sin_taylor (13714895755990673 / 2 ^ 58 : ℝ)
    (by rw [abs_of_pos (by norm_num)]; norm_num) 8 (by norm_num)
  rw [abs_of_pos (show (0 : ℝ) < 13714895755990673 / 2 ^ 58 by norm_num)] at hb
  obtain ⟨hc, hs⟩ := hb
  rw [abs_le] at hc hs
  have hc1 := hc.1
  have hc2 := hc.2
  have hs1 := hs.1
  simp only [Finset.sum_range_succ, Finset.sum_range_zero, Nat.factorial,
    Nat.succ_eq_add_one] at hc1 hc2 hs1
  norm_num at hc1 hc2 hs1
  apply arg_lt_of_lt_tan _ (by norm_num) _ (by norm_num)
  · show 1 * Real.cos _ < Real.sin _ * 21
    linarith
  · linarith

/-- The double nearest to `atan2 6 7` is `0.7086262721276703`. -/
theorem binary64_arg_seven_six :
    binary64 (Complex.arg ⟨7, 6⟩) = 6382738030198239 / 2 ^ 53 := by
  have hlo := arg_seven_six_gt
  have hhi := arg_seven_six_lt
  have hpos : 0 < Complex.arg ⟨7, 6⟩ := lt_trans (by norm_num) hlo
  have h := binary64_eq (Complex.arg ⟨7, 6⟩) (-1) 6382738030198239
    (by rw [abs_of_pos hpos]; norm_num; linarith)
    (by rw [abs_of_pos hpos]; norm_num; linarith)
    (by rw [abs_lt]; norm_num; constructor <;> linarith)
  rw [h]
  norm_num

/-- The double nearest to `atan2 1 21` is `0.047583103276983396`. -/
theorem binary64_arg_twentyOne_one :
    binary64 (Complex.arg ⟨21, 1⟩) = 857180984749417 / 2 ^ 54 := by
  have hlo := arg_twentyOne_one_gt
  have hhi := arg_twentyOne_one_lt
  have hpos : 0 < Complex.arg ⟨21, 1⟩ := lt_trans (by norm_num) hlo
  have h := binary64_eq (Complex.arg ⟨21, 1⟩) (-5) 6857447877995336
    (by rw [abs_of_pos hpos]; norm_num; linarith)
    (by rw [abs_of_pos hpos]; norm_num; linarith)
    (by rw [abs_lt]; norm_num; constructor <;> linarith)
  rw [h]
  norm_num

theorem double_centre : (200 : Double) / 2 = 100 := by
  apply Double.ext_val
  rw [Double.val_div, Double.val_ofNat 200 (by norm_num), Double.val_ofNat 2 (by norm_num),
    Double.val_ofNat 100 (by norm_num), show (200 : ℚ) / 2 = 100 by norm_num,
    binary64_ofNat 100 (by norm_num)]

theorem double_theta_first :
    theta Math.double (mouseAt (107 : Double) 94) = ⟨6382738030198239 / 2 ^ 53⟩ := by
  have b6 : binary64 (6 : ℚ) = 6 := binary64_ofNat 6 (by norm_num)
  have b7 : binary64 (7 : ℚ) = 7 := binary64_ofNat 7 (by norm_num)
  have hy : ((100 : Double) - 94).val = 6 := by
    rw [Double.val_sub, Double.val_ofNat 100 (by norm_num), Double.val_ofNat 94 (by norm_num),
      show (100 : ℚ) - 94 = 6 by norm_num, b6]
  have hx : ((107 : Double) - 100).val = 7 := by
    rw [Double.val_sub, Double.val_ofNat 107 (by norm_num), Double.val_ofNat 100 (by norm_num),
      show (107 : ℚ) - 100 = 7 by norm_num, b7]
  apply Double.ext_val
  simp only [theta, mouseAt, double_centre, Math.double, hx, hy]
  norm_num
  exact binary64_arg_seven_six

theorem double_theta_second :
    theta Math.double (mouseAt (121 : Double) 99) = ⟨857180984749417 / 2 ^ 54⟩ := by
  have b1 : binary64 (1 : ℚ) = 1 := binary64_one
  have b21 : binary64 (21 : ℚ) = 21 := binary64_ofNat 21 (by norm_num)
  have hy : ((100 : Double) - 99).val = 1 := by
    rw [Double.val_sub, Double.val_ofNat 100 (by norm_num), Double.val_ofNat 99 (by norm_num),
      show (100 : ℚ) - 99 = 1 by norm_num, b1]
  have hx : ((121 : Double) - 100).val = 21 := by
    rw [Double.val_sub, Double.val_ofNat 121 (by norm_num), Double.val_ofNat 100 (by norm_num),
      show (121 : ℚ) - 100 = 21 by norm_num, b21]
  apply Double.ext_val
  simp only [theta, mouseAt, double_centre, Math.double, hx, hy]
  norm_num
  exact binary64_arg_twentyOne_one

theorem double_theta_third : theta Math.double (mouseAt (110 : Double) 100) = 0 := by
  have b10 : binary64 (10 : ℚ) = 10 := binary64_ofNat 10 (by norm_num)
  have hy : ((100 : Double) - 100).val = 0 := by
    rw [Double.val_sub, Double.val_ofNat 100 (by norm_num), sub_self, binary64_zero]
  have hx : ((110 : Double) - 100).val = 10 := by
    rw [Double.val_sub, Double.val_ofNat 110 (by norm_num), Double.val_ofNat 100 (by norm_num),
      show (110 : ℚ) - 100 = 10 by norm_num, b10]
  have harg : Complex.arg ⟨(10 : ℝ), (0 : ℝ)⟩ = 0 := by
    rw [Complex.arg_eq_zero_iff]
    constructor <;> norm_num
  apply Double.ext_val
  simp only [theta, mouseAt, double_centre, Math.double, hx, hy]
  norm_num
  rw [harg, binary64_zero, Double.val_zero]

theorem double_first_difference :
    (⟨6382738030198239 / 2 ^ 53⟩ : Double) - ⟨857180984749417 / 2 ^ 54⟩
      = ⟨2977073768911765 / 2 ^ 52⟩ := by
  apply Double.ext_val
  rw [Double.val_sub]
  have h := binary64_eq_tie ((6382738030198239 / 2 ^ 53 : ℚ) - 857180984749417 / 2 ^ 54) (-1)
    5954147537823530 (by norm_num [abs_of_pos]) (by norm_num [abs_of_pos]) (by norm_num)
    (by norm_num)
  rw [h]
  norm_num

theorem double_second_difference :
    (⟨857180984749417 / 2 ^ 54⟩ : Double) - 0 = ⟨857180984749417 / 2 ^ 54⟩ := by
  apply Double.ext_val
  rw [Double.val_sub, Double.val_zero, sub_zero]
  have h := binary64_eq (857180984749417 / 2 ^ 54 : ℚ) (-5) 6857447877995336
    (by norm_num [abs_of_pos]) (by norm_num [abs_of_pos]) (by norm_num [abs_lt])
  rw [h]
  norm_num

theorem double_add_zero :
    (⟨857180984749417 / 2 ^ 54⟩ : Double) + 0 = ⟨857180984749417 / 2 ^ 54⟩ := by
  apply Double.ext_val
  rw [Double.val_add, Double.val_zero, add_zero]
  have h := binary64_eq (857180984749417 / 2 ^ 54 : ℚ) (-5) 6857447877995336
    (by norm_num [abs_of_pos]) (by norm_num [abs_of_pos]) (by norm_num [abs_lt])
  rw [h]
  norm_num

theorem double_sum :
    (⟨2977073768911765 / 2 ^ 52⟩ : Double) + ⟨857180984749417 / 2 ^ 54⟩
      = ⟨3191369015099119 / 2 ^ 52⟩ := by
  apply Double.ext_val
  rw [Double.val_add]
  have h := binary64_eq_tie ((2977073768911765 / 2 ^ 52 : ℚ) + 857180984749417 / 2 ^ 54) (-1)
    6382738030198238 (by norm_num [abs_of_pos]) (by norm_num [abs_of_pos]) (by norm_num)
    (by norm_num)
  rw [h]
  norm_num

theorem double_net_rotation :
    (⟨6382738030198239 / 2 ^ 53⟩ : Double) - 0 = ⟨6382738030198239 / 2 ^ 53⟩ := by
  apply Double.ext_val
  rw [Double.val_sub, Double.val_zero, sub_zero]
  have h := binary64_eq (6382738030198239 / 2 ^ 53 : ℚ) (-1) 6382738030198239
    (by norm_num [abs_of_pos]) (by norm_num [abs_of_pos]) (by norm_num [abs_lt])
  rw [h]
  norm_num

/-- Counterexample to C16 as stated, on doubles.  On a 200 by 200 viewport an
accepted mouse down is followed by samples at pixels `(107, 94)`, `(121, 99)`
and `(110, 100)`, of angles `0.7086262721276703`, `0.047583103276983396` and
`0`.  The two `adjustRotation` arguments are the doubles `0.6610431688506868`
(a rounded difference) and `0.047583103276983396`; they add up to
`0.7086262721276702`, as doubles, and to less than `t_1 - t_3` exactly, while
`t_1 - t_3` is `0.7086262721276703`. -/
theorem C16_doubles_do_not_telescope :
    rotationArgs (invokeAll (flagCondition Double) Math.double
      (create (flagCondition Double) none)
      [HandlerCall.handleDownEvent (mouseAt 100 100),
        HandlerCall.handleDragEvent (mouseAt 107 94),
        HandlerCall.handleDragEvent (mouseAt 121 99),
        HandlerCall.handleDragEvent (mouseAt 110 100)]).calls
      = [⟨2977073768911765 / 2 ^ 52⟩, ⟨857180984749417 / 2 ^ 54⟩] ∧
    (rotationArgs (invokeAll (flagCondition Double) Math.double
      (create (flagCondition Double) none)
      [HandlerCall.handleDownEvent (mouseAt 100 100),
        HandlerCall.handleDragEvent (mouseAt 107 94),
        HandlerCall.handleDragEvent (mouseAt 121 99),
        HandlerCall.handleDragEvent (mouseAt 110 100)]).calls).sum
      = ⟨3191369015099119 / 2 ^ 52⟩ ∧
    theta Math.double (mouseAt (107 : Double) 94) - theta Math.double (mouseAt (110 : Double) 100)
      = ⟨6382738030198239 / 2 ^ 53⟩ ∧
    (rotationArgs (invokeAll (flagCondition Double) Math.double
      (create (flagCondition Double) none)
      [HandlerCall.handleDownEvent (mouseAt 100 100),
        HandlerCall.handleDragEvent (mouseAt 107 94),
        HandlerCall.handleDragEvent (mouseAt 121 99),
        HandlerCall.handleDragEvent (mouseAt 110 100)]).calls).sum
      ≠ theta Math.double (mouseAt (107 : Double) 94)
        - theta Math.double (mouseAt (110 : Double) 100) ∧
    ((rotationArgs (invokeAll (flagCondition Double) Math.double
      (create (flagCondition Double) none)
      [HandlerCall.handleDownEvent (mouseAt 100 100),
        HandlerCall.handleDragEvent (mouseAt 107 94),
        HandlerCall.handleDragEvent (mouseAt 121 99),
        HandlerCall.handleDragEvent (mouseAt 110 100)]).calls).map Double.val).sum
      ≠ (theta Math.double (mouseAt (107 : Double) 94)
        - theta Math.double (mouseAt (110 : Double) 100)).val := by
  have hargs : rotationArgs (invokeAll (flagCondition Double) Math.double
      (create (flagCondition Double) none)
      [HandlerCall.handleDownEvent (mouseAt 100 100),
        HandlerCall.handleDragEvent (mouseAt 107 94),
        HandlerCall.handleDragEvent (mouseAt 121 99),
        HandlerCall.handleDragEvent (mouseAt 110 100)]).calls
      = [⟨2977073768911765 / 2 ^ 52⟩, ⟨857180984749417 / 2 ^ 54⟩] := by
    have h := gesture_rotationArgs (flagCondition Double) Math.double
      (create (flagCondition Double) none) (mouseAt 100 100) (mouseAt 107 94)
      [mouseAt 121 99, mouseAt 110 100] rfl rfl rfl (by simp [flagCondition, mouseAt])
    refine h.trans ?_
    simp only [List.map_cons, List.map_nil, List.zipWith_cons_cons, List.zipWith_nil_right,
      double_theta_first, double_theta_second, double_theta_third, double_first_difference,
      double_second_difference]
  have hsum : ([⟨2977073768911765 / 2 ^ 52⟩, ⟨857180984749417 / 2 ^ 54⟩] : List Double).sum
      = ⟨3191369015099119 / 2 ^ 52⟩ := by
    show (⟨2977073768911765 / 2 ^ 52⟩ : Double) + (⟨857180984749417 / 2 ^ 54⟩ + 0) = _
    rw [double_add_zero, double_sum]
  have hnet : theta Math.double (mouseAt (107 : Double) 94)
      - theta Math.double (mouseAt (110 : Double) 100) = ⟨6382738030198239 / 2 ^ 53⟩ := by
    rw [double_theta_first, double_theta_third, double_net_rotation]
  refine ⟨hargs, by rw [hargs, hsum], hnet, ?_, ?_⟩
  · rw [hargs, hsum, hnet]
    intro h
    have hv := congrArg Double.val h
    norm_num at hv
  · rw [hargs, hnet]
    simp only [List.map_cons, List.map_nil, List.sum_cons, List.sum_nil]
    norm_num

end DragRotateAndZoom
